import Mathlib

/-!
Verification of the `webrtcsink` element (`net/webrtc/src/webrtcsink/imp.rs`)
against its natural-language specification.

Shallow-embedding conventions used throughout this development:

* GStreamer caps are modelled by their (single) `structure`: a name together
  with an ordered association list of fields.  `Structure::set` replaces an
  existing value in place (keeping the field's position) or appends a new
  field at the end; `remove_field` drops the field; this matches the
  GStreamer C implementation.
* GStreamer fractions (framerates, aspect ratios) are modelled by `ℚ`;
  GStreamer reduces fractions on arithmetic, so a reduced `num/den` pair is
  exactly a rational number.
* Rust `f64` arithmetic is modelled by exact arithmetic over `ℚ`.  The two
  numeric casts the code uses are modelled faithfully:
  `as u32` / `as i32` applied to a float truncate toward zero and saturate
  at the bounds of the target type (`f64AsU32`, `f64AsI32`), while integer →
  integer `as` casts wrap (two's complement).
* Rust `HashMap`s are modelled by association lists; insertion order is
  irrelevant to the properties proved here.
* A Rust `panic!`/`unimplemented!` is modelled by `Option.none` propagation.
-/

/-- Euclid's algorithm with explicit fuel, so that the kernel can evaluate it
(the fuel bounds the number of division steps; 128 suffices for any inputs
appearing in this development). -/
def natGcdFuel : Nat → Nat → Nat → Nat
  | 0, a, _ => a
  | _ + 1, a, 0 => a
  | fuel + 1, a, b => natGcdFuel fuel b (a % b)

/-- A GStreamer fraction, kept in the reduced positive-denominator form that
the `gst::Fraction` (num-rational) arithmetic maintains. -/
structure GFraction where
  num : Int
  den : Int
deriving DecidableEq, Repr

/-- `Ratio::new`: reduce by the gcd and normalize the denominator's sign
(a zero denominator, which panics in the source, is returned unchanged). -/
def GFraction.make (n d : Int) : GFraction :=
  if d = 0 then ⟨n, d⟩
  else
    let g : Int := (natGcdFuel 128 n.natAbs d.natAbs : Nat)
    let n' := n / g
    let d' := d / g
    if d' < 0 then ⟨-n', -d'⟩ else ⟨n', d'⟩

/-- `gst::Fraction` multiplication (reduces the result). -/
def GFraction.mul (a b : GFraction) : GFraction :=
  GFraction.make (a.num * b.num) (a.den * b.den)

/-- A GStreamer field value: integers, fractions and strings are the cases
the verified code paths manipulate. -/
inductive GValue where
  | int (i : Int)
  | frac (f : GFraction)
  | str (s : String)
deriving DecidableEq, Repr

/-- A single caps structure: a media-type name plus an ordered field list. -/
structure GstStructure where
  name : String
  fields : List (String × GValue)
deriving DecidableEq, Repr

/-- `gst_structure_set`: replace the value of an existing field in place,
or append the field at the end. -/
def setFieldList : List (String × GValue) → String → GValue → List (String × GValue)
  | [], k, v => [(k, v)]
  | (k', v') :: rest, k, v =>
    if k' = k then (k, v) :: rest else (k', v') :: setFieldList rest k v

/-- `gst_structure_remove_field` (no-op when the field is absent). -/
def removeFieldList : List (String × GValue) → String → List (String × GValue)
  | [], _ => []
  | (k', v') :: rest, k =>
    if k' = k then removeFieldList rest k else (k', v') :: removeFieldList rest k

/-- `gst_structure_remove_fields`: remove each listed field in turn. -/
def removeFieldsList (l : List (String × GValue)) (ks : List String) :
    List (String × GValue) :=
  ks.foldl removeFieldList l

def GstStructure.setField (s : GstStructure) (k : String) (v : GValue) : GstStructure :=
  { s with fields := setFieldList s.fields k v }

def GstStructure.removeField (s : GstStructure) (k : String) : GstStructure :=
  { s with fields := removeFieldList s.fields k }

def GstStructure.removeFields (s : GstStructure) (ks : List String) : GstStructure :=
  { s with fields := removeFieldsList s.fields ks }

def GstStructure.getField (s : GstStructure) (k : String) : Option GValue :=
  (s.fields.find? (fun p => p.1 = k)).map (·.2)

/-! ### The discovered-caps scrub (`run_discovery_pipeline`, imp.rs:2882-2897)

On success the discovery pipeline takes `caps.structure(0)`, removes
`timestamp-offset`, `seqnum-offset`, `ssrc`, `sprop-parameter-sets` and
`a-framerate`, and sets the codec's payload type. -/

/-- The field names stripped from a discovered caps structure. -/
def scrubbedFields : List String :=
  ["timestamp-offset", "seqnum-offset", "ssrc", "sprop-parameter-sets", "a-framerate"]

/-- The caps scrub performed by `run_discovery_pipeline` on the payloaded
caps structure, with `pt` the codec's payload type. -/
def discoveryScrub (pt : Int) (s : GstStructure) : GstStructure :=
  (s.removeFields scrubbedFields).setField "payload" (.int pt)

/-! ### Exact-rational model of `f64` values

Every `f64` the congestion-distribution code manipulates is modelled as an
unreduced fraction of integers, with exact arithmetic (IEEE rounding is not
modelled; the quantities involved are small).  The saturating float→integer
`as` casts are modelled faithfully. -/

structure F64 where
  num : Int
  den : Int
deriving DecidableEq, Repr

def F64.ofInt (i : Int) : F64 := ⟨i, 1⟩

def F64.add (a b : F64) : F64 := ⟨a.num * b.den + b.num * a.den, a.den * b.den⟩

def F64.mul (a b : F64) : F64 := ⟨a.num * b.num, a.den * b.den⟩

def F64.div (a b : F64) : F64 := ⟨a.num * b.den, a.den * b.num⟩

/-- The rational value denoted by an `F64`. -/
def F64.toRat (a : F64) : ℚ := (a.num : ℚ) / (a.den : ℚ)

def F64.floor (a : F64) : Int :=
  if 0 ≤ a.den then a.num / a.den else (-a.num) / (-a.den)

def F64.isNeg (a : F64) : Bool := decide (a.num * a.den < 0)

/-- Truncation toward zero (what a float→integer cast does before clamping). -/
def F64.trunc (a : F64) : Int :=
  if a.isNeg then -(F64.floor ⟨-a.num, a.den⟩) else a.floor

/-- Rust `as u32` applied to an `f64`: saturating cast. -/
def F64.asU32 (a : F64) : Nat :=
  if a.isNeg then 0 else min a.floor.toNat (2 ^ 32 - 1)

/-- Rust `as i32` applied to an `f64`: saturating cast. -/
def F64.asI32 (a : F64) : Int :=
  max (-(2 ^ 31)) (min (2 ^ 31 - 1) a.trunc)

/-- Spec-side mirror of `F64.trunc` on `ℚ`. -/
def ratTrunc (q : ℚ) : Int := if q < 0 then -⌊-q⌋ else ⌊q⌋

/-- Spec-side mirror of `F64.asI32` on `ℚ`. -/
def specAsI32 (q : ℚ) : Int := max (-(2 ^ 31)) (min (2 ^ 31 - 1) (ratTrunc q))

/-! ### The `VideoEncoder` wrapper (imp.rs:172-182, 709-850)

`VideoEncoder` wraps an encoder element plus the raw capsfilter used to
resize/decimate the input according to the bitrate.  The encoder element is
modelled by its integer-valued property list; the capsfilter by its current
caps structure plus a counter of `set_property("caps", ..)` calls (the model
of the observable write-back side effect). -/

/-- An integer property store for an element (`set_property` semantics). -/
def setPropList : List (String × Int) → String → Int → List (String × Int)
  | [], k, v => [(k, v)]
  | (k', v') :: rest, k, v =>
    if k' = k then (k, v) :: rest else (k', v') :: setPropList rest k v

/-- The relevant part of `gst_video::VideoInfo`: native size, pixel aspect
ratio and framerate (both as fractions; a zero framerate numerator models a
variable-framerate stream). -/
structure VideoInfoM where
  width : Nat
  height : Nat
  par : GFraction
  fps : GFraction
deriving DecidableEq, Repr

/-- `WebRTCSinkMitigationMode` is a bitflag set with DOWNSCALED and
DOWNSAMPLED bits (NONE is both clear). -/
structure WebRTCSinkMitigationMode where
  downscaled : Bool
  downsampled : Bool
deriving DecidableEq, Repr

structure VideoEncoder where
  factory_name : String
  codec_name : String
  element_props : List (String × Int)
  filterCaps : GstStructure
  halved_framerate : GFraction
  video_info : VideoInfoM
  session_id : String
  mitigation_mode : WebRTCSinkMitigationMode
  transceiver_fec_percentage : Nat
  caps_set_count : Nat
deriving DecidableEq, Repr

/-- `VideoEncoder::new` (imp.rs:710-735): stores the pieces and computes
`halved_framerate = video_info.fps() * Fraction::new(1, 2)`. -/
def VideoEncoder.make (factory codec_nm : String) (props : List (String × Int))
    (filterCaps : GstStructure) (vi : VideoInfoM) (sid : String) : VideoEncoder :=
  { factory_name := factory
    codec_name := codec_nm
    element_props := props
    filterCaps := filterCaps
    halved_framerate := vi.fps.mul ⟨1, 2⟩
    video_info := vi
    session_id := sid
    mitigation_mode := ⟨false, false⟩
    transceiver_fec_percentage := 0
    caps_set_count := 0 }

/-- Rust wrapping `as u32` on an integer. -/
def intAsU32 (i : Int) : Int := i.emod (2 ^ 32)

/-- Rust `i32` division (truncation toward zero). -/
def intTdiv (a b : Int) : Int := if 0 ≤ a then a / b else -((-a) / b)

/-- The per-factory bitrate property dialect of `VideoEncoder::set_bitrate`
(imp.rs:765-774); `none` models the `unimplemented!` panic for an unknown
factory. -/
def VideoEncoder.setElementBitrate (e : VideoEncoder) (bitrate : Int) :
    Option VideoEncoder :=
  if e.factory_name = "vp8enc" ∨ e.factory_name = "vp9enc" then
    some { e with element_props := setPropList e.element_props "target-bitrate" bitrate }
  else if e.factory_name = "x264enc" ∨ e.factory_name = "nvh264enc" ∨
      e.factory_name = "vaapih264enc" ∨ e.factory_name = "vaapivp8enc" then
    some { e with
      element_props := setPropList e.element_props "bitrate" (intAsU32 (intTdiv bitrate 1000)) }
  else if e.factory_name = "nvv4l2h264enc" ∨ e.factory_name = "nvv4l2vp8enc" ∨
      e.factory_name = "nvv4l2vp9enc" then
    some { e with element_props := setPropList e.element_props "bitrate" (intAsU32 bitrate) }
  else
    none

/-- Integer ceiling division (positive divisor). -/
def intCeilDiv (a b : Int) : Int := -((-a) / b)

/-- `VideoEncoder::scale_height_round_2` (imp.rs:750-762): the width obtained
from `height` by preserving the display aspect ratio
`(width * par.num) / (height * par.den)` (`gst_video::calculate_display_ratio`
with a 1/1 output PAR), taking the ceiling (`mul_div_ceil`), then rounding up
to an even number (`(width + 1) & !1`).  The ceiling only depends on the
value of the ratio, so the gcd reduction performed by
`calculate_display_ratio` is dropped. -/
def VideoEncoder.scale_height_round_2 (e : VideoEncoder) (height : Int) : Int :=
  let w := intCeilDiv (height * ((e.video_info.width : Int) * e.video_info.par.num))
    ((e.video_info.height : Int) * e.video_info.par.den)
  (w + 1) - (w + 1) % 2

/-- The caps-mitigation block of `VideoEncoder::set_bitrate` (imp.rs:776-822):
from the current filter caps structure, the new structure and mitigation mode
chosen by the hardcoded bitrate thresholds. -/
def VideoEncoder.mitigatedCaps (e : VideoEncoder) (bitrate : Int) :
    GstStructure × WebRTCSinkMitigationMode :=
  let s0 := e.filterCaps
  if bitrate < 500000 then
    let height : Int := min 360 (e.video_info.height : Int)
    let width := e.scale_height_round_2 height
    let s1 := (s0.setField "height" (.int height)).setField "width" (.int width)
    let s2 := if e.halved_framerate.num ≠ 0 then
        s1.setField "framerate" (.frac e.halved_framerate)
      else s1
    (s2, WebRTCSinkMitigationMode.mk true true)
  else if bitrate < 1000000 then
    let height : Int := min 360 (e.video_info.height : Int)
    let width := e.scale_height_round_2 height
    let s1 := ((s0.setField "height" (.int height)).setField "width"
      (.int width)).removeField "framerate"
    (s1, WebRTCSinkMitigationMode.mk true false)
  else if bitrate < 2000000 then
    let height : Int := min 720 (e.video_info.height : Int)
    let width := e.scale_height_round_2 height
    let s1 := ((s0.setField "height" (.int height)).setField "width"
      (.int width)).removeField "framerate"
    (s1, WebRTCSinkMitigationMode.mk true false)
  else
    (((s0.removeField "height").removeField "width").removeField "framerate",
      WebRTCSinkMitigationMode.mk false false)

/-- `VideoEncoder::set_bitrate` (imp.rs:764-837): set the dialect-specific
bitrate property, then update the raw capsfilter according to the hardcoded
bitrate thresholds, and write the caps back only when they differ strictly
from the current ones. -/
def VideoEncoder.set_bitrate (e : VideoEncoder) (bitrate : Int) : Option VideoEncoder :=
  match e.setElementBitrate bitrate with
  | none => none
  | some e1 =>
    let result := e1.mitigatedCaps bitrate
    if result.1 = e1.filterCaps then
      some { e1 with mitigation_mode := result.2 }
    else
      some { e1 with
        mitigation_mode := result.2
        filterCaps := result.1
        caps_set_count := e1.caps_set_count + 1 }

/-- The mitigation ladder exactly as the spec words it (§4.4): the mode
chosen in each of the four bitrate bands. -/
def specMitigationLadder (bitrate : Int) : WebRTCSinkMitigationMode :=
  if bitrate < 500000 then ⟨true, true⟩
  else if bitrate < 1000000 then ⟨true, false⟩
  else if bitrate < 2000000 then ⟨true, false⟩
  else ⟨false, false⟩

/-- How many mitigation actions a mode applies (for the monotonicity claim). -/
def mitigationSeverity (m : WebRTCSinkMitigationMode) : Nat :=
  (if m.downscaled then 1 else 0) + (if m.downsampled then 1 else 0)

/-- Spec-side width formula: scale the given height by the display aspect
ratio `(width * par.num) / (height * par.den)` (rounding up), then round up
to an even number. -/
def specScaledWidth (vi : VideoInfoM) (height : Int) : Int :=
  let w := ⌈(height : ℚ) * (((vi.width : ℚ) * (vi.par.num : ℚ)) /
    (((vi.height : ℚ)) * (vi.par.den : ℚ)))⌉
  (w + 1) - (w + 1) % 2

/-! ### Session-level bitrate distribution (`BaseWebRTCSink::set_bitrate`,
imp.rs:2501-2533) -/

/-- `DO_FEC_THRESHOLD` (imp.rs:62). -/
def DO_FEC_THRESHOLD : Nat := 2000000

/-- The slice of a `Session` that `BaseWebRTCSink::set_bitrate` touches:
the congestion-control `max_bitrate`, the optional `rtprtxsend` element
(modelled by its current `stuffing-kbps` property) and the video encoders. -/
structure SessionM where
  max_bitrate : Nat
  rtprtxsend : Option Int
  encoders : List VideoEncoder
deriving DecidableEq, Repr

/-- Propagate `Option` through a list (models a loop whose body may panic). -/
def mapOption (f : α → Option β) : List α → Option (List β)
  | [] => some []
  | a :: l =>
    match f a, mapOption f l with
    | some b, some bl => some (b :: bl)
    | _, _ => none

/-- The `fec_ratio` computation of `BaseWebRTCSink::set_bitrate`
(imp.rs:2508-2516): `(bitrate - DO_FEC_THRESHOLD) as f64 /
((max_bitrate * n_encoders) as f64 - DO_FEC_THRESHOLD as f64)` when `do_fec`
holds and the bitrate exceeds the threshold, else `0.0`. -/
def sessionFecRatF (do_fec : Bool) (sess : SessionM) (bitrate : Nat) : F64 :=
  if do_fec && decide (DO_FEC_THRESHOLD < bitrate) then
    F64.div (F64.ofInt ((bitrate : Int) - (DO_FEC_THRESHOLD : Int)))
      (F64.ofInt (((sess.max_bitrate * sess.encoders.length : Nat) : Int) -
        (DO_FEC_THRESHOLD : Int)))
  else F64.ofInt 0

/-- `fec_percentage = fec_ratio * 50f64` (imp.rs:2518). -/
def sessionFecPctF (do_fec : Bool) (sess : SessionM) (bitrate : Nat) : F64 :=
  F64.mul (sessionFecRatF do_fec sess bitrate) (F64.ofInt 50)

/-- `encoders_bitrate = (bitrate / (1 + fec_percentage / 100) / n_encoders)
as i32` (imp.rs:2519-2520). -/
def sessionEncodersBitrate (do_fec : Bool) (sess : SessionM) (bitrate : Nat) : Int :=
  F64.asI32 (F64.div (F64.div (F64.ofInt (bitrate : Int))
    (F64.add (F64.ofInt 1) (F64.div (sessionFecPctF do_fec sess bitrate) (F64.ofInt 100))))
    (F64.ofInt (sess.encoders.length : Int)))

/-- `BaseWebRTCSink::set_bitrate` (imp.rs:2501-2533) for an existing session:
compute the FEC ratio, set `stuffing-kbps` on `rtprtxsend` when present, and
set each encoder's bitrate and its transceiver's `fec-percentage`
(`(fec_percentage as u32).min(100)`). -/
def BaseWebRTCSink.set_bitrate (do_fec : Bool) (sess : SessionM) (bitrate : Nat) :
    Option SessionM :=
  (mapOption (fun e =>
      (VideoEncoder.set_bitrate e (sessionEncodersBitrate do_fec sess bitrate)).map
        (fun e' => { e' with
          transceiver_fec_percentage := min ((sessionFecPctF do_fec sess bitrate).asU32) 100 }))
    sess.encoders).map (fun encs =>
      { sess with
        rtprtxsend := sess.rtprtxsend.map (fun _ =>
          F64.asI32 (F64.div (F64.ofInt (bitrate : Int)) (F64.ofInt 1000)))
        encoders := encs })

/-- The spec's FEC ratio formula (§4.5): for `N` encoders and total bitrate
`B`, `(B - THRESHOLD) / (N * max_bitrate - THRESHOLD)` when FEC applies. -/
def specFecRat (do_fec : Bool) (n maxB B : Nat) : ℚ :=
  if do_fec = true ∧ DO_FEC_THRESHOLD < B then
    ((B : ℚ) - 2000000) / ((n : ℚ) * (maxB : ℚ) - 2000000)
  else 0

/-- The spec's per-transceiver FEC percentage: `clamp(fec_ratio * 50, 0, 100)`
floored to an integer (the property is a `u32`). -/
def specFecPercentage (r : ℚ) : Nat := (min (max ⌊r * 50⌋ 0) 100).toNat

/-- The spec's per-encoder bitrate: `B / (1 + fec_percentage / 100) / N`,
cast to `i32`. -/
def specEncoderBitrate (B : Nat) (r : ℚ) (n : Nat) : Int :=
  specAsI32 ((B : ℚ) / (1 + (r * 50) / 100) / (n : ℚ))

/-! ### Concrete instances used by witnesses and counterexamples -/

/-- A vp8 encoder for a 1280x720 variable-framerate stream (native fps 0/1,
as `VideoInfo` reports for caps without a fixed framerate), built as
`VideoEncoder::new` builds it: its `halved_framerate` is 0. -/
def encVarFramerate : VideoEncoder :=
  VideoEncoder.make "vp8enc" "VP8" [] ⟨"video/x-raw", []⟩
    ⟨1280, 720, ⟨1, 1⟩, ⟨0, 1⟩⟩ "sess0"

/-- A vp8 encoder for a 1920x1080@30 stream. -/
def encFullHd : VideoEncoder :=
  VideoEncoder.make "vp8enc" "VP8" [] ⟨"video/x-raw", [("framerate", .frac ⟨30, 1⟩)]⟩
    ⟨1920, 1080, ⟨1, 1⟩, ⟨30, 1⟩⟩ "sess1"

/-- A session with two 1080p encoders and `max-bitrate` 4000000 (the spec's
scenario 5), with an rtprtxsend element present. -/
def sessTwoEncoders : SessionM :=
  { max_bitrate := 4000000
    rtprtxsend := some 0
    encoders := [encFullHd, encFullHd] }

/-! ### Session table operations (`remove_session`, `handle_ice`) -/

/-- A per-peer session as the session-table operations see it. -/
structure SessionRec where
  peer_id : String
deriving DecidableEq, Repr

/-- The element-state slice the session-table operations touch: the session
map (`state.sessions`) and the `finalizing_sessions` id set. -/
structure SinkState where
  sessions : List (String × SessionRec)
  finalizing : List String
deriving DecidableEq, Repr

/-- `state.sessions.contains_key(id)`. -/
def SinkState.hasSession (st : SinkState) (id : String) : Bool :=
  (st.sessions.find? (fun p => p.1 = id)).isSome

/-- `State::end_session` plus `finalize_session` (imp.rs:853-897): remove the
session from the map and register its id in `finalizing_sessions` (the
asynchronous pipeline-to-Null worker is not modelled further). -/
def SinkState.end_session (st : SinkState) (id : String) :
    Option SessionRec × SinkState :=
  match st.sessions.find? (fun p => p.1 = id) with
  | some p =>
    (some p.2,
      { sessions := st.sessions.filter (fun q => q.1 ≠ id)
        finalizing := st.finalizing ++ [id] })
  | none => (none, st)

/-- The error kinds of the element (super::WebRTCSinkError). -/
inductive WebRTCSinkError where
  | duplicateSessionId (id : String)
  | noSessionWithId (id : String)
deriving DecidableEq, Repr

/-- Signals observable outside `remove_session`. -/
inductive EmittedSignal where
  | consumerRemoved (peer_id : String)
  | endSessionSignal (id : String)
deriving DecidableEq, Repr

/-- `BaseWebRTCSink::remove_session` (imp.rs:2420-2446): error with
`NoSessionWithId` on an unknown id before touching any state; otherwise end
the session and emit the removal signals (signaller `consumer-removed`, the
optional signaller `end_session`, element `consumer-removed`). -/
def BaseWebRTCSink.remove_session (st : SinkState) (id : String) (signal : Bool) :
    Except WebRTCSinkError (SinkState × List EmittedSignal) :=
  if ¬st.hasSession id then
    .error (.noSessionWithId id)
  else
    match st.end_session id with
    | (some sessionRec, st') =>
      .ok (st', [.consumerRemoved sessionRec.peer_id] ++
        (if signal then [.endSessionSignal id] else []) ++
        [.consumerRemoved sessionRec.peer_id])
    | (none, st') => .ok (st', [])

/-- `BaseWebRTCSink::handle_ice` (imp.rs:2626-2651): the m-line index is
checked first (a missing one only logs a warning), then the session is
looked up (an unknown id only logs a warning); the candidate is emitted to
the session's webrtcbin (`add-ice-candidate`) only when both are present.
The state is returned unchanged (the function only reads it), and no error
is raised in any case (the return type is unit in the source). -/
def BaseWebRTCSink.handle_ice (st : SinkState) (session_id : String)
    (sdp_m_line_index : Option Nat) (_sdp_mid : Option String) (candidate : String) :
    SinkState × Option (Nat × String) :=
  match sdp_m_line_index with
  | none => (st, none)
  | some idx =>
    if st.hasSession session_id then (st, some (idx, candidate)) else (st, none)

/-! ### Pad requests (`request_new_pad`, imp.rs:3623-3689) -/

/-- The element-state slice `request_new_pad` touches: the two serial
counters and the created stream names. -/
structure PadRequestState where
  video_serial : Nat
  audio_serial : Nat
  stream_names : List String
deriving DecidableEq, Repr

/-- `State::default()` starts both serials at 0 (imp.rs:345-346). -/
def initialPadRequestState : PadRequestState := ⟨0, 0, []⟩

/-- `BaseWebRTCSink::request_new_pad`: `aboveReady` models
`element.current_state() > gst::State::Ready` (in which case the request is
refused); `templIsVideo` models `templ.name().starts_with("video_")`; the
caller-supplied `_name` (and caps) are ignored by the source.  Returns the
created pad's name and serial. -/
def BaseWebRTCSink.request_new_pad (st : PadRequestState) (aboveReady : Bool)
    (templIsVideo : Bool) (_name : Option String) :
    Option (String × Nat) × PadRequestState :=
  if aboveReady then (none, st)
  else if templIsVideo then
    (some ("video_" ++ toString st.video_serial, st.video_serial),
      { st with
        video_serial := st.video_serial + 1
        stream_names := st.stream_names ++ ["video_" ++ toString st.video_serial] })
  else
    (some ("audio_" ++ toString st.audio_serial, st.audio_serial),
      { st with
        audio_serial := st.audio_serial + 1
        stream_names := st.stream_names ++ ["audio_" ++ toString st.audio_serial] })

/-- Run a sequence of pad requests; each entry is (aboveReady, templIsVideo,
suggested name).  Returns the final state and the per-request results. -/
def runPadRequests : PadRequestState → List (Bool × Bool × Option String) →
    PadRequestState × List (Option (String × Nat))
  | st, [] => (st, [])
  | st, r :: rs =>
    let step := BaseWebRTCSink.request_new_pad st r.1 r.2.1 r.2.2
    let rest := runPadRequests step.2 rs
    (rest.1, step.1 :: rest.2)

/-- The number of successful video pad requests in a request list. -/
def countVideoSuccesses (rs : List (Bool × Bool × Option String)) : Nat :=
  (rs.filter (fun r => !r.1 && r.2.1)).length

/-- The number of successful non-video (hence audio-template) requests. -/
def countAudioSuccesses (rs : List (Bool × Bool × Option String)) : Nat :=
  (rs.filter (fun r => !r.1 && !r.2.1)).length

/-- The result the spec predicts for one request given the numbers of prior
successful requests of each kind. -/
def expectedPadResult (vser aser : Nat) (r : Bool × Bool × Option String) :
    Option (String × Nat) :=
  if r.1 then none
  else if r.2.1 then some ("video_" ++ toString vser, vser)
  else some ("audio_" ++ toString aser, aser)

/-! ### WebRTC pads, ssrc generation and SDP answers -/

/-- A `WebRTCPad` (imp.rs:152-166), keeping the fields the verified
operations read or write. -/
structure WebRTCPadM where
  media_idx : Nat
  ssrc : Nat
  stream_name : Option String
  payload : Option Int
deriving DecidableEq, Repr

/-- `BaseWebRTCSink::generate_ssrc` (imp.rs:1244-1256): draw random u32
values until one is not already a key of the session's `webrtc_pads` map.
The randomness is modelled by the list `draws` of values the generator
produces in order; `none` models the case that the supplied draws are
exhausted without finding a fresh value (the source would keep looping). -/
def BaseWebRTCSink.generate_ssrc (draws : List Nat)
    (webrtc_pads : List (Nat × WebRTCPadM)) : Option Nat :=
  draws.find? (fun r => !(webrtc_pads.any (fun p => p.1 = r)))

/-- `BaseWebRTCSink::request_inactive_webrtcbin_pad` (imp.rs:1258-1295):
insert a stream-nameless pad under a fresh ssrc, with media index the
current map size and no payload. -/
def BaseWebRTCSink.request_inactive_webrtcbin_pad (draws : List Nat)
    (webrtc_pads : List (Nat × WebRTCPadM)) : Option (List (Nat × WebRTCPadM)) :=
  (BaseWebRTCSink.generate_ssrc draws webrtc_pads).map (fun ssrc =>
    webrtc_pads ++ [(ssrc, ⟨webrtc_pads.length, ssrc, none, none⟩)])

/-- `BaseWebRTCSink::request_webrtcbin_pad` (imp.rs:1297-1397): generate a
fresh ssrc; when the payloader caps for the stream end up empty the function
delegates to `request_inactive_webrtcbin_pad` (which draws its own fresh
ssrc), otherwise it inserts an active pad (stream name set, payload still
`None`) under the generated ssrc. -/
def BaseWebRTCSink.request_webrtcbin_pad (draws draws₂ : List Nat)
    (webrtc_pads : List (Nat × WebRTCPadM)) (stream_name : String)
    (payloaderCapsEmpty : Bool) : Option (List (Nat × WebRTCPadM)) :=
  (BaseWebRTCSink.generate_ssrc draws webrtc_pads).bind (fun ssrc =>
    if payloaderCapsEmpty then
      BaseWebRTCSink.request_inactive_webrtcbin_pad draws₂ webrtc_pads
    else
      some (webrtc_pads ++ [(ssrc, ⟨webrtc_pads.length, ssrc, some stream_name, none⟩)]))

/-- One pad request of a session build-up. -/
inductive PadReqM where
  | activeReq (draws draws₂ : List Nat) (stream_name : String)
      (payloaderCapsEmpty : Bool)
  | inactiveReq (draws : List Nat)

def applyPadReq (req : PadReqM) (pads : List (Nat × WebRTCPadM)) :
    Option (List (Nat × WebRTCPadM)) :=
  match req with
  | .activeReq d d₂ nm emp => BaseWebRTCSink.request_webrtcbin_pad d d₂ pads nm emp
  | .inactiveReq d => BaseWebRTCSink.request_inactive_webrtcbin_pad d pads

def runPadReqs : List PadReqM → List (Nat × WebRTCPadM) →
    Option (List (Nat × WebRTCPadM))
  | [], pads => some pads
  | r :: rs, pads => (applyPadReq r pads).bind (runPadReqs rs)

/-- The `webrtc_pads` map invariant: keys are pairwise distinct and every
pad is stored under its own ssrc. -/
def ssrcKeyInv (pads : List (Nat × WebRTCPadM)) : Prop :=
  pads.Pairwise (fun a b => a.1 ≠ b.1) ∧ ∀ p ∈ pads, p.2.ssrc = p.1

/-- One m-line of an SDP answer, as `handle_sdp_answer` reads it:
`inactiveAttr` models `media.attribute_val("inactive").is_some()` and
`fmt0Payload` models `media.format(0).and_then(|f| f.parse::<i32>().ok())`
(the SDP format-string parsing is abstracted into its result). -/
structure SDPMediaM where
  inactiveAttr : Bool
  fmt0Payload : Option Int
deriving DecidableEq, Repr

/-- `BaseWebRTCSink::handle_sdp_answer` (imp.rs:2653-2746), processing the
session's pads in (arbitrary map) order: if the answer's media for a pad
carries an `inactive` attribute, or yields no parseable payload, the session
is ended (`none` — `end_session` plus signaller `end_session`); otherwise
every pad's payload is filled in from its media's first format. -/
def BaseWebRTCSink.handle_sdp_answer :
    List WebRTCPadM → List SDPMediaM → Option (List WebRTCPadM)
  | [], _ => some []
  | pad :: rest, sdp =>
    if ((sdp[pad.media_idx]?).map (·.inactiveAttr)).getD false then none
    else
      match (sdp[pad.media_idx]?).bind (·.fmt0Payload) with
      | some p =>
        (BaseWebRTCSink.handle_sdp_answer rest sdp).map
          (fun r => { pad with payload := some p } :: r)
      | none => none

/-- The per-pad outcome of `on_remote_description_set` (imp.rs:2535-2623),
which calls `Session::connect_input_stream` for each pad: a pad without a
stream name is skipped (inactive media, imp.rs:964-977); an active pad
requires a payload (`webrtc_pad.payload.unwrap()`, imp.rs:988 — the panic on
a missing payload is modelled as a failed connect) and an
externally-determined link success (`linkOk`, abstracting the producer
lookup and the pipeline linking).  Returns `true` when the session survives
(is re-inserted into the session table) and `false` when it is ended. -/
def BaseWebRTCSink.on_remote_description_set (pads : List WebRTCPadM)
    (linkOk : WebRTCPadM → Bool) : Bool :=
  pads.all (fun pad =>
    match pad.stream_name with
    | none => true
    | some _ => pad.payload.isSome && linkOk pad)

/-! ### Initial-discovery lifecycle and ingress caps events -/

/-- The discovery-lifecycle state of one `InputStream`: its `out_caps`, the
number of `DiscoveryType::Initial` entries in `stream.discoveries`, and the
number of spawned `lookup_caps` tasks not yet completed. -/
structure StreamDiscoveryState where
  out_caps : Option GstStructure
  initialDiscoveries : Nat
  pendingTasks : Nat
deriving DecidableEq, Repr

def initialStreamDiscoveryState : StreamDiscoveryState := ⟨none, 0, 0⟩

/-- One event in the life of a stream's initial discovery: `buffer` models a
buffer arriving on the sink pad (`chain` →
`start_stream_discovery_if_needed`, imp.rs:3064-3174); `complete caps`
models the spawned `lookup_caps` task finishing with `stream.out_caps =
Some(payloader_caps)` (imp.rs:2987-2990, written unconditionally, before the
emptiness check). -/
inductive DiscoveryEvent where
  | buffer
  | complete (caps : GstStructure)
deriving DecidableEq, Repr

/-- `start_stream_discovery_if_needed` is a no-op when `out_caps` is already
set or when an Initial discovery is already registered; otherwise it
registers one discovery (`create_discovery` pushes an entry, imp.rs:3092;
the caller pushes a clone, imp.rs:3093; and the trailing `remove_discovery`,
imp.rs:3161-3163, removes one — net one registered entry) and spawns one
`lookup_caps` task.  A completion is only possible while a task is
pending. -/
def discoveryStep (st : StreamDiscoveryState) (ev : DiscoveryEvent) :
    StreamDiscoveryState :=
  match ev with
  | .buffer =>
    if st.out_caps.isSome then st
    else if 1 ≤ st.initialDiscoveries then st
    else
      { st with
        initialDiscoveries := st.initialDiscoveries + 1
        pendingTasks := st.pendingTasks + 1 }
  | .complete caps =>
    if 1 ≤ st.pendingTasks then
      { st with out_caps := some caps, pendingTasks := st.pendingTasks - 1 }
    else st

def runDiscovery (evs : List DiscoveryEvent) : StreamDiscoveryState :=
  evs.foldl discoveryStep initialStreamDiscoveryState

/-- The inductive invariant of the discovery lifecycle: at most one pending
task, and while one is pending a discovery is registered and `out_caps` is
still unset. -/
def discoveryInv (st : StreamDiscoveryState) : Prop :=
  st.pendingTasks ≤ 1 ∧
    (st.pendingTasks = 1 → 1 ≤ st.initialDiscoveries ∧ st.out_caps = none)

/-- A stream-table entry as `sink_event` sees it. -/
structure StreamCapsEntry where
  pad_name : String
  in_caps : Option GstStructure
deriving DecidableEq, Repr

/-- Strip `max-framerate` from raw video caps (imp.rs:3044-3053). -/
def stripMaxFramerate (caps : GstStructure) : GstStructure :=
  if caps.name = "video/x-raw" then caps.removeField "max-framerate" else caps

/-- `BaseWebRTCSink::sink_event` (imp.rs:3011-3062) for a caps event:
`padCurrentCaps` is the pad's current caps, `downstream` the verdict of
`gst::Pad::event_default` (the forwarded event).  Returns whether the event
was accepted and the updated stream table. -/
def BaseWebRTCSink.sink_event (padCurrentCaps : Option GstStructure)
    (streams : List StreamCapsEntry) (padName : String) (newCaps : GstStructure)
    (downstream : Bool) : Bool × List StreamCapsEntry :=
  match padCurrentCaps with
  | some caps => if caps = newCaps then (true, streams) else (false, streams)
  | none =>
    (downstream, streams.map (fun s =>
      if s.pad_name = padName then
        { s with in_caps := some (stripMaxFramerate newCaps) }
      else s))

/-! ### Discovery probe scheduling (C3) -/

/-- Events of the discovery scheduler: probe `i` starts (its transient
pipeline is set to Playing — which happens during the first poll of
`run_discovery_pipeline`, before its first await point at the bus-message
loop, imp.rs:2834-2840) or finishes (the probe's future resolves). -/
inductive ProbeEvent where
  | start (i : Nat)
  | finish (i : Nat)
deriving DecidableEq, Repr

/-- The trace of `select_codec` (imp.rs:1797-1826): the probe futures are
awaited one at a time in a for-loop ("Run sequentially to avoid NVENC
collisions"), stopping at the first success.  `o i` is whether probe `i`
succeeds; `fuel` counts the candidates left, `s` the next candidate index. -/
def selectCodecTraceFrom (o : Nat → Bool) : Nat → Nat → List ProbeEvent
  | _, 0 => []
  | s, fuel + 1 =>
    if o s then [.start s, .finish s]
    else [.start s, .finish s] ++ selectCodecTraceFrom o (s + 1) fuel

def selectCodecTrace (o : Nat → Bool) (n : Nat) : List ProbeEvent :=
  selectCodecTraceFrom o 0 n

/-- The trace of `lookup_caps` (imp.rs:2968): `futures::future::join_all`
polls every probe future once before any of them can complete, so every
probe's pipeline is started before any probe finishes. -/
def lookupCapsTrace (n : Nat) : List ProbeEvent :=
  (List.range n).map .start ++ (List.range n).map .finish

/-- A trace runs its probes sequentially when probe `i+1` is started only
after probe `i` has completed. -/
def sequentialTrace (tr : List ProbeEvent) : Prop :=
  ∀ (i pj : Nat), tr[pj]? = some (ProbeEvent.start (i + 1)) →
    ∃ pi : Nat, pi < pj ∧ tr[pi]? = some (ProbeEvent.finish i)

/-- A one-session element state. -/
def sinkStateOne : SinkState := ⟨[("s1", ⟨"peerA"⟩)], []⟩

/-- Two concrete caps structures used by witnesses. -/
def capsRtp : GstStructure := ⟨"application/x-rtp", []⟩

def capsRtp96 : GstStructure := ⟨"application/x-rtp", [("payload", .int 96)]⟩

theorem removeFieldList_removeFieldList_comm (l : List (String × GValue)) (k k' : String) :
    removeFieldList (removeFieldList l k) k' = removeFieldList (removeFieldList l k') k := by
  induction l with
  | nil => rfl
  | cons p rest ih =>
    obtain ⟨k₀, v₀⟩ := p
    by_cases h1 : k₀ = k <;> by_cases h2 : k₀ = k'
    · subst h1; subst h2; rfl
    · have hkk' : ¬k = k' := fun hh => h2 (h1.trans hh)
      simp [removeFieldList, h1, h2, hkk', ih]
    · have hk'k : ¬k' = k := fun hh => h1 (h2.trans hh)
      simp [removeFieldList, h1, h2, hk'k, ih]
    · simp [removeFieldList, h1, h2, ih]

theorem removeFieldList_idem (l : List (String × GValue)) (k : String) :
    removeFieldList (removeFieldList l k) k = removeFieldList l k := by
  induction l with
  | nil => rfl
  | cons p rest ih =>
    obtain ⟨k₀, v₀⟩ := p
    by_cases h1 : k₀ = k <;> simp [removeFieldList, h1, ih]

theorem removeFieldList_setFieldList_ne (l : List (String × GValue)) (k k' : String)
    (h : k ≠ k') (v : GValue) :
    removeFieldList (setFieldList l k v) k' = setFieldList (removeFieldList l k') k v := by
  induction l with
  | nil => simp [setFieldList, removeFieldList, h]
  | cons p rest ih =>
    obtain ⟨k₀, v₀⟩ := p
    by_cases h1 : k₀ = k <;> by_cases h2 : k₀ = k' <;>
      simp_all [setFieldList, removeFieldList, h, h1, h2]

theorem setFieldList_setFieldList_same (l : List (String × GValue)) (k : String) (v : GValue) :
    setFieldList (setFieldList l k v) k v = setFieldList l k v := by
  induction l with
  | nil => simp [setFieldList]
  | cons p rest ih =>
    obtain ⟨k₀, v₀⟩ := p
    by_cases h1 : k₀ = k <;> simp [setFieldList, h1, ih]

theorem removeFieldsList_removeFieldList_comm (l : List (String × GValue)) (ks : List String)
    (k : String) :
    removeFieldsList (removeFieldList l k) ks = removeFieldList (removeFieldsList l ks) k := by
  induction ks generalizing l with
  | nil => rfl
  | cons k' ks ih =>
    show removeFieldsList (removeFieldList (removeFieldList l k) k') ks = _
    rw [removeFieldList_removeFieldList_comm l k k', ih]
    rfl

theorem removeFieldsList_idem (l : List (String × GValue)) (ks : List String) :
    removeFieldsList (removeFieldsList l ks) ks = removeFieldsList l ks := by
  induction ks generalizing l with
  | nil => rfl
  | cons k ks ih =>
    show removeFieldsList (removeFieldList (removeFieldsList (removeFieldList l k) ks) k) ks = _
    rw [← removeFieldsList_removeFieldList_comm (removeFieldList l k) ks k,
      removeFieldList_idem, ih]
    rfl

theorem removeFieldsList_setFieldList_notMem (l : List (String × GValue)) (ks : List String)
    (k : String) (h : k ∉ ks) (v : GValue) :
    removeFieldsList (setFieldList l k v) ks = setFieldList (removeFieldsList l ks) k v := by
  induction ks generalizing l with
  | nil => rfl
  | cons k' ks ih =>
    have hne : k ≠ k' := fun he => h (he ▸ List.mem_cons_self k' ks)
    have hks : k ∉ ks := fun hm => h (List.mem_cons_of_mem k' hm)
    show removeFieldsList (removeFieldList (setFieldList l k v) k') ks = _
    rw [removeFieldList_setFieldList_ne l k k' hne v, ih _ hks]
    rfl

/-- Claim C8: the caps scrub applied to a discovered caps structure —
removing `timestamp-offset`, `seqnum-offset`, `ssrc`, `sprop-parameter-sets`
and `a-framerate`, then setting the codec's payload — is idempotent: for
every caps structure, applying the scrub twice yields a structure equal to
applying it once. -/
theorem discoveryScrub_idempotent (pt : Int) (s : GstStructure) :
    discoveryScrub pt (discoveryScrub pt s) = discoveryScrub pt s := by
  have hnm : "payload" ∉ scrubbedFields := by decide
  simp only [discoveryScrub, GstStructure.setField, GstStructure.removeFields]
  rw [removeFieldsList_setFieldList_notMem _ scrubbedFields "payload" hnm,
    removeFieldsList_idem, setFieldList_setFieldList_same]

/-! ### Field-lookup lemmas -/

theorem find_setFieldList_same (l : List (String × GValue)) (k : String) (v : GValue) :
    (setFieldList l k v).find? (fun p => p.1 = k) = some (k, v) := by
  induction l with
  | nil => simp [setFieldList]
  | cons p rest ih =>
    obtain ⟨k0, v0⟩ := p
    by_cases h : k0 = k <;> simp [setFieldList, h, List.find?, ih]

theorem find_setFieldList_ne (l : List (String × GValue)) (k k' : String) (h : k' ≠ k)
    (v : GValue) :
    (setFieldList l k v).find? (fun p => p.1 = k') = l.find? (fun p => p.1 = k') := by
  induction l with
  | nil => simp [setFieldList, List.find?, Ne.symm h]
  | cons p rest ih =>
    obtain ⟨k0, v0⟩ := p
    by_cases h0 : k0 = k
    · subst h0
      simp [setFieldList, List.find?, Ne.symm h]
    · by_cases h1 : k0 = k' <;>
        simp [setFieldList, List.find?, h, Ne.symm h, h0, h1, ih]

theorem find_removeFieldList_same (l : List (String × GValue)) (k : String) :
    (removeFieldList l k).find? (fun p => p.1 = k) = none := by
  induction l with
  | nil => simp [removeFieldList]
  | cons p rest ih =>
    obtain ⟨k0, v0⟩ := p
    by_cases h : k0 = k <;> simp [removeFieldList, h, List.find?, ih]

theorem find_removeFieldList_ne (l : List (String × GValue)) (k k' : String) (h : k' ≠ k) :
    (removeFieldList l k).find? (fun p => p.1 = k') = l.find? (fun p => p.1 = k') := by
  induction l with
  | nil => simp [removeFieldList]
  | cons p rest ih =>
    obtain ⟨k0, v0⟩ := p
    by_cases h0 : k0 = k
    · subst h0
      simp [removeFieldList, List.find?, Ne.symm h, ih]
    · by_cases h1 : k0 = k' <;>
        simp [removeFieldList, List.find?, h, Ne.symm h, h0, h1, ih]

theorem getField_setField_same (s : GstStructure) (k : String) (v : GValue) :
    (s.setField k v).getField k = some v := by
  simp [GstStructure.getField, GstStructure.setField, find_setFieldList_same]

theorem getField_setField_ne (s : GstStructure) (k k' : String) (h : k' ≠ k) (v : GValue) :
    (s.setField k v).getField k' = s.getField k' := by
  simp [GstStructure.getField, GstStructure.setField, find_setFieldList_ne _ _ _ h]

theorem getField_removeField_same (s : GstStructure) (k : String) :
    (s.removeField k).getField k = none := by
  simp [GstStructure.getField, GstStructure.removeField, find_removeFieldList_same]

theorem getField_removeField_ne (s : GstStructure) (k k' : String) (h : k' ≠ k) :
    (s.removeField k).getField k' = s.getField k' := by
  simp [GstStructure.getField, GstStructure.removeField, find_removeFieldList_ne _ _ _ h]

/-! ### Bridges between the integer computations and their `ℚ` descriptions -/

theorem ceil_intCast_div (a b : ℤ) (hb : 0 < b) :
    ⌈((a : ℚ) / (b : ℚ))⌉ = intCeilDiv a b := by
  have hx : ((a : ℚ) / (b : ℚ)) = -(((-a : ℤ) : ℚ) / (b : ℚ)) := by push_cast; ring
  have hbn : ((b.toNat : ℕ) : ℤ) = b := Int.toNat_of_nonneg hb.le
  rw [hx, Int.ceil_neg, intCeilDiv]
  congr 1
  rw [← hbn]
  exact_mod_cast Rat.floor_intCast_div_natCast (-a) b.toNat

theorem scale_height_round_2_eq_spec (e : VideoEncoder) (hgt : Int)
    (hpos : 0 < (e.video_info.height : Int) * e.video_info.par.den) :
    e.scale_height_round_2 hgt = specScaledWidth e.video_info hgt := by
  have key : ⌈((hgt : ℚ)) * (((e.video_info.width : ℚ) * (e.video_info.par.num : ℚ)) /
      (((e.video_info.height : ℚ)) * (e.video_info.par.den : ℚ)))⌉ =
      intCeilDiv (hgt * ((e.video_info.width : Int) * e.video_info.par.num))
        ((e.video_info.height : Int) * e.video_info.par.den) := by
    rw [← ceil_intCast_div _ _ hpos]
    congr 1
    push_cast
    ring
  simp only [VideoEncoder.scale_height_round_2, specScaledWidth, key]

/-! ### Inversion of `VideoEncoder::set_bitrate` -/

theorem setElementBitrate_shape (e : VideoEncoder) (b : Int) (e1 : VideoEncoder)
    (h : e.setElementBitrate b = some e1) :
    ∃ props, e1 = { e with element_props := props } := by
  unfold VideoEncoder.setElementBitrate at h
  split_ifs at h <;> exact ⟨_, ((Option.some.injEq _ _).mp h).symm⟩

theorem set_bitrate_inv (e : VideoEncoder) (b : Int) (e' : VideoEncoder)
    (h : VideoEncoder.set_bitrate e b = some e') :
    e'.filterCaps = (e.mitigatedCaps b).1 ∧
    e'.mitigation_mode = (e.mitigatedCaps b).2 ∧
    e'.video_info = e.video_info ∧
    e'.halved_framerate = e.halved_framerate ∧
    ((e'.caps_set_count = e.caps_set_count ∧ e'.filterCaps = e.filterCaps) ∨
      (e'.caps_set_count = e.caps_set_count + 1 ∧ e'.filterCaps ≠ e.filterCaps)) := by
  unfold VideoEncoder.set_bitrate at h
  revert h
  cases hse : e.setElementBitrate b with
  | none => intro h; exact absurd h (by simp)
  | some e1 =>
    intro h
    obtain ⟨props, rfl⟩ := setElementBitrate_shape e b e1 hse
    by_cases hif : (VideoEncoder.mitigatedCaps { e with element_props := props } b).1 =
        ({ e with element_props := props } : VideoEncoder).filterCaps
    · simp only [hif, if_pos] at h
      rw [← (Option.some.injEq _ _).mp h]
      refine ⟨?_, rfl, rfl, rfl, Or.inl ⟨rfl, rfl⟩⟩
      exact hif.symm
    · simp only [hif, if_neg, not_false_iff] at h
      rw [← (Option.some.injEq _ _).mp h]
      exact ⟨rfl, rfl, rfl, rfl, Or.inr ⟨rfl, by simpa using hif⟩⟩

/-- Claim C2 (amended): for every VideoEncoder (with a well-formed video
info: positive height and pixel-aspect denominator),
`VideoEncoder::set_bitrate(b)` updates the raw capsfilter and mitigation mode
by four bands: `b < 500000` sets height = min(360, native height), width
scaled from height preserving the display aspect ratio rounded up to even,
framerate = halved framerate provided the halved framerate is nonzero (for a
variable-framerate stream, fps 0, the framerate field is left unchanged), and
mode = Downsampled|Downscaled; `500000 ≤ b < 1000000` sets height =
min(360, native), scaled width, removes the framerate field, mode =
Downscaled; `1000000 ≤ b < 2000000` sets height = min(720, native), scaled
width, removes framerate, mode = Downscaled; `b ≥ 2000000` removes height,
width and framerate, mode = None; applied in increasing bitrate order the
modes are monotone in this ladder; and the capsfilter caps are written back
only if strictly different from the current caps. -/
theorem videoEncoder_set_bitrate_ladder (e e' : VideoEncoder) (b : Int)
    (hpos : 0 < (e.video_info.height : Int) * e.video_info.par.den)
    (h : VideoEncoder.set_bitrate e b = some e') :
    (b < 500000 →
      e'.filterCaps.getField "height" = some (.int (min 360 (e.video_info.height : Int))) ∧
      e'.filterCaps.getField "width" =
        some (.int (specScaledWidth e.video_info (min 360 (e.video_info.height : Int)))) ∧
      (e.halved_framerate.num ≠ 0 →
        e'.filterCaps.getField "framerate" = some (.frac e.halved_framerate)) ∧
      (e.halved_framerate.num = 0 →
        e'.filterCaps.getField "framerate" = e.filterCaps.getField "framerate") ∧
      e'.mitigation_mode = ⟨true, true⟩) ∧
    (500000 ≤ b → b < 1000000 →
      e'.filterCaps.getField "height" = some (.int (min 360 (e.video_info.height : Int))) ∧
      e'.filterCaps.getField "width" =
        some (.int (specScaledWidth e.video_info (min 360 (e.video_info.height : Int)))) ∧
      e'.filterCaps.getField "framerate" = none ∧
      e'.mitigation_mode = ⟨true, false⟩) ∧
    (1000000 ≤ b → b < 2000000 →
      e'.filterCaps.getField "height" = some (.int (min 720 (e.video_info.height : Int))) ∧
      e'.filterCaps.getField "width" =
        some (.int (specScaledWidth e.video_info (min 720 (e.video_info.height : Int)))) ∧
      e'.filterCaps.getField "framerate" = none ∧
      e'.mitigation_mode = ⟨true, false⟩) ∧
    (2000000 ≤ b →
      e'.filterCaps.getField "height" = none ∧
      e'.filterCaps.getField "width" = none ∧
      e'.filterCaps.getField "framerate" = none ∧
      e'.mitigation_mode = ⟨false, false⟩) ∧
    e'.mitigation_mode = specMitigationLadder b ∧
    (∀ b₁ b₂ : Int, b₁ ≤ b₂ →
      mitigationSeverity (specMitigationLadder b₂) ≤ mitigationSeverity (specMitigationLadder b₁)) ∧
    ((e'.caps_set_count = e.caps_set_count ∧ e'.filterCaps = e.filterCaps) ∨
      (e'.caps_set_count = e.caps_set_count + 1 ∧ e'.filterCaps ≠ e.filterCaps)) := by
  obtain ⟨hcaps, hmode, _hv, _hf, hwrite⟩ := set_bitrate_inv e b e' h
  refine ⟨?_, ?_, ?_, ?_, ?_, ?_, hwrite⟩
  · intro hb
    have hm : e'.mitigation_mode = ⟨true, true⟩ := by
      rw [hmode]; simp [VideoEncoder.mitigatedCaps, hb]
    refine ⟨?_, ?_, ?_, ?_, hm⟩
    · rw [hcaps]
      by_cases hfr0 : e.halved_framerate.num ≠ 0 <;>
        simp [VideoEncoder.mitigatedCaps, hb, hfr0, getField_setField_ne,
          getField_setField_same]
    · rw [hcaps]
      by_cases hfr0 : e.halved_framerate.num ≠ 0 <;>
        simp [VideoEncoder.mitigatedCaps, hb, hfr0, getField_setField_ne,
          getField_setField_same, scale_height_round_2_eq_spec e _ hpos]
    · intro hfr
      rw [hcaps]
      simp [VideoEncoder.mitigatedCaps, hb, hfr, getField_setField_same]
    · intro hfr
      rw [hcaps]
      simp [VideoEncoder.mitigatedCaps, hb, hfr, getField_setField_ne]
  · intro hb1 hb2
    have hnb : ¬b < 500000 := not_lt.mpr hb1
    have hm : e'.mitigation_mode = ⟨true, false⟩ := by
      rw [hmode]; simp [VideoEncoder.mitigatedCaps, hnb, hb2]
    refine ⟨?_, ?_, ?_, hm⟩ <;> rw [hcaps] <;>
      simp [VideoEncoder.mitigatedCaps, hnb, hb2, getField_setField_ne,
        getField_setField_same, getField_removeField_same, getField_removeField_ne,
        scale_height_round_2_eq_spec e _ hpos]
  · intro hb1 hb2
    have hnb : ¬b < 500000 := not_lt.mpr (by omega)
    have hnb1 : ¬b < 1000000 := not_lt.mpr hb1
    have hm : e'.mitigation_mode = ⟨true, false⟩ := by
      rw [hmode]; simp [VideoEncoder.mitigatedCaps, hnb, hnb1, hb2]
    refine ⟨?_, ?_, ?_, hm⟩ <;> rw [hcaps] <;>
      simp [VideoEncoder.mitigatedCaps, hnb, hnb1, hb2, getField_setField_ne,
        getField_setField_same, getField_removeField_same, getField_removeField_ne,
        scale_height_round_2_eq_spec e _ hpos]
  · intro hb1
    have hnb : ¬b < 500000 := not_lt.mpr (by omega)
    have hnb1 : ¬b < 1000000 := not_lt.mpr (by omega)
    have hnb2 : ¬b < 2000000 := not_lt.mpr hb1
    have hm : e'.mitigation_mode = ⟨false, false⟩ := by
      rw [hmode]; simp [VideoEncoder.mitigatedCaps, hnb, hnb1, hnb2]
    refine ⟨?_, ?_, ?_, hm⟩ <;> rw [hcaps] <;>
      simp [VideoEncoder.mitigatedCaps, hnb, hnb1, hnb2,
        getField_removeField_same, getField_removeField_ne]
  · rw [hmode]
    unfold VideoEncoder.mitigatedCaps specMitigationLadder
    split_ifs <;> rfl
  · intro b₁ b₂ hle
    unfold specMitigationLadder
    split_ifs <;> first | decide | (exfalso; omega)

/-- Claim C2 counterexample: for an encoder of a variable-framerate stream
(native fps 0/1, so the halved framerate is 0), a bitrate in the lowest band
does NOT set the framerate field of the capsfilter to the halved framerate —
the guard `halved_framerate.numer() != 0` (imp.rs:788) leaves the field
unchanged — contradicting the claim's unconditional
"framerate = halved framerate" in the `b < 500000` band. -/
theorem videoEncoder_set_bitrate_framerate_counterexample :
    ∃ e', VideoEncoder.set_bitrate encVarFramerate 300000 = some e' ∧
      (300000 : Int) < 500000 ∧
      e'.filterCaps.getField "framerate" ≠
        some (.frac encVarFramerate.halved_framerate) := by
  refine ⟨_, rfl, by decide, by decide⟩

/-- Witness for the amended C2 theorem at a concrete encoder (1920x1080@30,
vp8enc) and bitrate 300000: height 360, width 640, framerate halved,
mode Downsampled|Downscaled. -/
theorem videoEncoder_set_bitrate_ladder_witness :
    ∃ e', VideoEncoder.set_bitrate encFullHd 300000 = some e' ∧
      e'.filterCaps.getField "height" =
        some (.int (min 360 (encFullHd.video_info.height : Int))) ∧
      e'.filterCaps.getField "width" =
        some (.int (specScaledWidth encFullHd.video_info
          (min 360 (encFullHd.video_info.height : Int)))) ∧
      e'.filterCaps.getField "framerate" = some (.frac encFullHd.halved_framerate) ∧
      e'.mitigation_mode = ⟨true, true⟩ := by
  obtain ⟨e', he⟩ : ∃ x, VideoEncoder.set_bitrate encFullHd 300000 = some x := ⟨_, rfl⟩
  have hth := videoEncoder_set_bitrate_ladder encFullHd e' 300000 (by decide) he
  have hb1 := hth.1 (by decide)
  exact ⟨e', he, hb1.1, hb1.2.1, hb1.2.2.1 (by decide), hb1.2.2.2.2⟩

/-! ### `F64` semantics lemmas -/

theorem F64.floor_toRat (a : F64) : a.floor = ⌊a.toRat⌋ := by
  rcases lt_trichotomy a.den 0 with hd | hd | hd
  · have h0 : ¬0 ≤ a.den := not_le.mpr hd
    have hpos : (0 : ℤ) ≤ -a.den := by omega
    have hcast : (((-a.den).toNat : ℕ) : ℚ) = ((-a.den : ℤ) : ℚ) := by
      exact_mod_cast congrArg (fun z : ℤ => (z : ℚ)) (Int.toNat_of_nonneg hpos)
    have hx : a.toRat = (((-a.num : ℤ) : ℚ) / (((-a.den).toNat : ℕ) : ℚ)) := by
      unfold F64.toRat
      rw [hcast]
      push_cast
      rw [div_neg, neg_div, neg_neg]
    rw [F64.floor, if_neg h0, hx, Rat.floor_intCast_div_natCast,
      Int.toNat_of_nonneg hpos]
  · rw [F64.floor, if_pos (le_of_eq hd.symm), hd]
    unfold F64.toRat
    rw [hd]
    simp
  · have hcast : ((a.den.toNat : ℕ) : ℚ) = ((a.den : ℤ) : ℚ) := by
      exact_mod_cast congrArg (fun z : ℤ => (z : ℚ)) (Int.toNat_of_nonneg hd.le)
    have hx : a.toRat = (((a.num : ℤ) : ℚ) / ((a.den.toNat : ℕ) : ℚ)) := by
      unfold F64.toRat
      rw [hcast]
    rw [F64.floor, if_pos hd.le, hx, Rat.floor_intCast_div_natCast,
      Int.toNat_of_nonneg hd.le]

theorem F64.isNeg_iff (a : F64) : a.isNeg = true ↔ a.toRat < 0 := by
  unfold F64.isNeg F64.toRat
  simp only [decide_eq_true_eq]
  constructor
  · intro h
    rw [div_neg_iff]
    rcases mul_neg_iff.mp h with ⟨h1, h2⟩ | ⟨h1, h2⟩
    · exact Or.inl ⟨by exact_mod_cast h1, by exact_mod_cast h2⟩
    · exact Or.inr ⟨by exact_mod_cast h1, by exact_mod_cast h2⟩
  · intro h
    rcases div_neg_iff.mp h with ⟨h1, h2⟩ | ⟨h1, h2⟩
    · exact mul_neg_iff.mpr (Or.inl ⟨by exact_mod_cast h1, by exact_mod_cast h2⟩)
    · exact mul_neg_iff.mpr (Or.inr ⟨by exact_mod_cast h1, by exact_mod_cast h2⟩)

theorem F64.trunc_toRat (a : F64) : a.trunc = ratTrunc a.toRat := by
  unfold F64.trunc ratTrunc
  by_cases hneg : a.isNeg = true
  · rw [if_pos hneg, if_pos ((F64.isNeg_iff a).mp hneg)]
    have hneg' : F64.toRat ⟨-a.num, a.den⟩ = -a.toRat := by
      unfold F64.toRat
      push_cast
      rw [neg_div]
    rw [F64.floor_toRat, hneg']
  · rw [if_neg hneg, if_neg (fun hc => hneg ((F64.isNeg_iff a).mpr hc)),
      F64.floor_toRat]

theorem F64.asI32_toRat (a : F64) : a.asI32 = specAsI32 a.toRat := by
  rw [F64.asI32, specAsI32, F64.trunc_toRat]

theorem F64.asU32_min100 (a : F64) :
    min a.asU32 100 = (min (max ⌊a.toRat⌋ 0) 100).toNat := by
  unfold F64.asU32
  by_cases hneg : a.isNeg = true
  · have hlt : a.toRat < 0 := (F64.isNeg_iff a).mp hneg
    have hfl : ⌊a.toRat⌋ < 0 := Int.floor_lt.mpr (by exact_mod_cast hlt)
    rw [if_pos hneg]
    omega
  · have hle : (0 : ℚ) ≤ a.toRat := not_lt.mp (fun hc => hneg ((F64.isNeg_iff a).mpr hc))
    have hfl : 0 ≤ ⌊a.toRat⌋ := Int.floor_nonneg.mpr hle
    rw [if_neg hneg, F64.floor_toRat]
    omega

theorem F64.toRat_ofInt (i : Int) : (F64.ofInt i).toRat = (i : ℚ) := by
  unfold F64.ofInt F64.toRat
  norm_num

theorem F64.toRat_mul (a b : F64) : (a.mul b).toRat = a.toRat * b.toRat := by
  unfold F64.mul F64.toRat
  push_cast
  rw [div_mul_div_comm]

theorem F64.toRat_div (a b : F64) : (a.div b).toRat = a.toRat / b.toRat := by
  unfold F64.div F64.toRat
  push_cast
  rw [div_div_div_eq]

theorem F64.toRat_add (a b : F64) (ha : a.den ≠ 0) (hb : b.den ≠ 0) :
    (a.add b).toRat = a.toRat + b.toRat := by
  unfold F64.add F64.toRat
  have ha' : (a.den : ℚ) ≠ 0 := Int.cast_ne_zero.mpr ha
  have hb' : (b.den : ℚ) ≠ 0 := Int.cast_ne_zero.mpr hb
  rw [div_add_div _ _ ha' hb']
  push_cast
  ring_nf

theorem specAsI32_natDiv1000 (B : Nat) (hB : B < 2 ^ 32) :
    specAsI32 ((B : ℚ) / (1000 : ℚ)) = ((B / 1000 : Nat) : Int) := by
  have hfl : ⌊((B : ℚ) / (1000 : ℚ))⌋ = ((B / 1000 : Nat) : Int) := by
    have h1 : ((B : ℚ) / (1000 : ℚ)) = (((B : ℤ) : ℚ) / ((1000 : ℕ) : ℚ)) := by
      push_cast; rfl
    rw [h1, Rat.floor_intCast_div_natCast]
    omega
  have hge : (0 : ℚ) ≤ (B : ℚ) / (1000 : ℚ) := by positivity
  unfold specAsI32 ratTrunc
  rw [if_neg (not_lt.mpr hge), hfl]
  omega

/-! ### `mapOption` lemmas -/

theorem mapOption_some_forall₂ (f : α → Option β) (l : List α) (l' : List β)
    (h : mapOption f l = some l') : List.Forall₂ (fun a b => f a = some b) l l' := by
  induction l generalizing l' with
  | nil =>
    unfold mapOption at h
    cases h
    exact .nil
  | cons a t ih =>
    unfold mapOption at h
    cases hfa : f a with
    | none => rw [hfa] at h; cases h
    | some b =>
      rw [hfa] at h
      cases hmt : mapOption f t with
      | none => rw [hmt] at h; cases h
      | some bt =>
        rw [hmt] at h
        cases h
        exact .cons hfa (ih bt hmt)

theorem forall₂_mem_right {R : α → β → Prop} {l : List α} {l' : List β}
    (h : List.Forall₂ R l l') (b : β) (hb : b ∈ l') : ∃ a, a ∈ l ∧ R a b := by
  induction h with
  | nil => cases hb
  | cons hr _ ih =>
    cases hb with
    | head => exact ⟨_, List.mem_cons_self _ _, hr⟩
    | tail _ hb2 =>
      obtain ⟨a, ha, har⟩ := ih hb2
      exact ⟨a, List.mem_cons_of_mem _ ha, har⟩

/-! ### Bridging the session bitrate distribution to the spec formulas -/

theorem sessionFecRatF_toRat (do_fec : Bool) (sess : SessionM) (B : Nat) :
    (sessionFecRatF do_fec sess B).toRat =
      specFecRat do_fec sess.encoders.length sess.max_bitrate B := by
  unfold sessionFecRatF specFecRat
  by_cases hc : do_fec = true ∧ DO_FEC_THRESHOLD < B
  · have hb : (do_fec && decide (DO_FEC_THRESHOLD < B)) = true := by
      rw [Bool.and_eq_true, decide_eq_true_eq]; exact hc
    rw [if_pos hb, if_pos hc, F64.toRat_div, F64.toRat_ofInt, F64.toRat_ofInt]
    unfold DO_FEC_THRESHOLD
    push_cast
    ring_nf
  · have hb : ¬(do_fec && decide (DO_FEC_THRESHOLD < B)) = true := by
      rw [Bool.and_eq_true, decide_eq_true_eq]; exact hc
    rw [if_neg hb, if_neg hc, F64.toRat_ofInt]
    norm_num

theorem sessionFecPctF_toRat (do_fec : Bool) (sess : SessionM) (B : Nat) :
    (sessionFecPctF do_fec sess B).toRat =
      specFecRat do_fec sess.encoders.length sess.max_bitrate B * 50 := by
  unfold sessionFecPctF
  rw [F64.toRat_mul, F64.toRat_ofInt, sessionFecRatF_toRat]
  norm_num

theorem sessionFecRatF_den_ne (do_fec : Bool) (sess : SessionM) (B : Nat)
    (hden : do_fec = true → DO_FEC_THRESHOLD < B →
      sess.encoders.length * sess.max_bitrate ≠ DO_FEC_THRESHOLD) :
    (sessionFecRatF do_fec sess B).den ≠ 0 := by
  unfold sessionFecRatF
  by_cases hb : (do_fec && decide (DO_FEC_THRESHOLD < B)) = true
  · rw [if_pos hb]
    rw [Bool.and_eq_true, decide_eq_true_eq] at hb
    have hne := hden hb.1 hb.2
    rw [Nat.mul_comm] at hne
    simp only [F64.div, F64.ofInt, one_mul]
    simp only [DO_FEC_THRESHOLD] at hne ⊢
    omega
  · rw [if_neg hb]
    simp [F64.ofInt]

theorem sessionFec_min100 (do_fec : Bool) (sess : SessionM) (B : Nat) :
    min ((sessionFecPctF do_fec sess B).asU32) 100 =
      specFecPercentage (specFecRat do_fec sess.encoders.length sess.max_bitrate B) := by
  rw [F64.asU32_min100, sessionFecPctF_toRat]
  rfl

theorem sessionEncodersBitrate_eq (do_fec : Bool) (sess : SessionM) (B : Nat)
    (hden : do_fec = true → DO_FEC_THRESHOLD < B →
      sess.encoders.length * sess.max_bitrate ≠ DO_FEC_THRESHOLD) :
    sessionEncodersBitrate do_fec sess B =
      specEncoderBitrate B (specFecRat do_fec sess.encoders.length sess.max_bitrate B)
        sess.encoders.length := by
  have hrd := sessionFecRatF_den_ne do_fec sess B hden
  have h2 : (F64.div (sessionFecPctF do_fec sess B) (F64.ofInt 100)).den ≠ 0 := by
    simp only [F64.div, F64.ofInt, sessionFecPctF, F64.mul, mul_one]
    intro hz
    rcases mul_eq_zero.mp hz with hz1 | hz2
    · exact hrd hz1
    · norm_num at hz2
  have hadd := F64.toRat_add (F64.ofInt 1)
    (F64.div (sessionFecPctF do_fec sess B) (F64.ofInt 100)) (by simp [F64.ofInt]) h2
  unfold sessionEncodersBitrate specEncoderBitrate
  rw [F64.asI32_toRat]
  congr 1
  rw [F64.toRat_div, F64.toRat_div, F64.toRat_ofInt, F64.toRat_ofInt, hadd,
    F64.toRat_div, F64.toRat_ofInt, F64.toRat_ofInt, sessionFecPctF_toRat]
  norm_num

/-- Claim C1: for every session with N ≥ 1 video encoders (all of supported
factories, `B < 2^32` as a `u32`, and `N·max_bitrate ≠ DO_FEC_THRESHOLD` so
the ratio's denominator is nonzero), when `BaseWebRTCSink::set_bitrate`
distributes a total bitrate B: if `do_fec` is true and B > 2000000 then
`fec_ratio = (B − 2000000) / (N·max_bitrate − 2000000)`, else `fec_ratio =
0`; each encoder's transceiver gets `fec-percentage = clamp(fec_ratio · 50,
0, 100)` (floored to an integer, as the property is a u32); each encoder's
bitrate is set to `B / (1 + fec_percentage/100) / N` (cast to i32); and when
an rtprtxsend element is present its `stuffing-kbps` is set to `B/1000`. -/
theorem baseWebRTCSink_set_bitrate_distribution (do_fec : Bool)
    (sess sess' : SessionM) (B : Nat) (hB : B < 2 ^ 32)
    (_hn : 1 ≤ sess.encoders.length)
    (hden : do_fec = true → DO_FEC_THRESHOLD < B →
      sess.encoders.length * sess.max_bitrate ≠ DO_FEC_THRESHOLD)
    (h : BaseWebRTCSink.set_bitrate do_fec sess B = some sess') :
    (∀ e' ∈ sess'.encoders, e'.transceiver_fec_percentage =
      specFecPercentage (specFecRat do_fec sess.encoders.length sess.max_bitrate B)) ∧
    List.Forall₂ (fun e e' => ∃ e₀,
      VideoEncoder.set_bitrate e
        (specEncoderBitrate B (specFecRat do_fec sess.encoders.length sess.max_bitrate B)
          sess.encoders.length) = some e₀ ∧
      e' = { e₀ with transceiver_fec_percentage :=
        specFecPercentage (specFecRat do_fec sess.encoders.length sess.max_bitrate B) })
      sess.encoders sess'.encoders ∧
    (sess.rtprtxsend.isSome = true → sess'.rtprtxsend = some ((B / 1000 : Nat) : Int)) ∧
    (sess.rtprtxsend = none → sess'.rtprtxsend = none) := by
  rw [BaseWebRTCSink.set_bitrate, Option.map_eq_some'] at h
  obtain ⟨encs, hmap, hmk⟩ := h
  subst hmk
  have hf := mapOption_some_forall₂ _ _ _ hmap
  have heb := sessionEncodersBitrate_eq do_fec sess B hden
  have hfec := sessionFec_min100 do_fec sess B
  have hf2 : List.Forall₂ (fun e e' => ∃ e₀,
      VideoEncoder.set_bitrate e
        (specEncoderBitrate B (specFecRat do_fec sess.encoders.length sess.max_bitrate B)
          sess.encoders.length) = some e₀ ∧
      e' = { e₀ with transceiver_fec_percentage :=
        specFecPercentage (specFecRat do_fec sess.encoders.length sess.max_bitrate B) })
      sess.encoders encs := by
    refine hf.imp ?_
    intro e e' he
    rw [Option.map_eq_some'] at he
    obtain ⟨e₀, h1, h2⟩ := he
    rw [heb] at h1
    exact ⟨e₀, h1, by rw [← h2, hfec]⟩
  refine ⟨?_, hf2, ?_, ?_⟩
  · intro e' he'
    obtain ⟨e, _, e₀, _, rfl⟩ := forall₂_mem_right hf2 e' he'
    rfl
  · intro hsome
    cases hs : sess.rtprtxsend with
    | none => rw [hs] at hsome; cases hsome
    | some v =>
      show some (F64.asI32 (F64.div (F64.ofInt (B : Int)) (F64.ofInt 1000))) =
        some ((B / 1000 : Nat) : Int)
      congr 1
      rw [F64.asI32_toRat, F64.toRat_div, F64.toRat_ofInt, F64.toRat_ofInt]
      have hc : (((B : ℤ) : ℚ) / ((1000 : ℤ) : ℚ)) = ((B : ℚ) / (1000 : ℚ)) := by
        push_cast; ring
      rw [hc]
      exact specAsI32_natDiv1000 B hB
  · intro hnone
    cases hs : sess.rtprtxsend with
    | none => rfl
    | some v => rw [hs] at hnone; cases hnone

/-- Witness for C1 at the spec's scenario 5: two 1080p encoders,
max-bitrate 4000000, B = 6000000, do_fec on. -/
theorem baseWebRTCSink_set_bitrate_distribution_witness :
    ∃ sess', BaseWebRTCSink.set_bitrate true sessTwoEncoders 6000000 = some sess' ∧
      (∀ e' ∈ sess'.encoders, e'.transceiver_fec_percentage =
        specFecPercentage (specFecRat true 2 4000000 6000000)) ∧
      sess'.rtprtxsend = some ((6000000 / 1000 : Nat) : Int) := by
  obtain ⟨sess', hs⟩ :
      ∃ x, BaseWebRTCSink.set_bitrate true sessTwoEncoders 6000000 = some x := ⟨_, rfl⟩
  have hth := baseWebRTCSink_set_bitrate_distribution true sessTwoEncoders sess' 6000000
    (by decide) (by decide) (by decide) hs
  exact ⟨sess', hs, fun e' he' => hth.1 e' he', hth.2.2.1 (by decide)⟩

/-- Claim C10: `handle_ice` is a no-op that leaves all element state
unchanged and raises no error when the session id matches no existing
session or when the SDP m-line index is absent; the ICE candidate is
forwarded to the session's webrtcbin if and only if a session with that id
exists and an m-line index was provided. -/
theorem handle_ice_forwarding (st : SinkState) (session_id : String)
    (idx : Option Nat) (mid : Option String) (cand : String) :
    (BaseWebRTCSink.handle_ice st session_id idx mid cand).1 = st ∧
    ((BaseWebRTCSink.handle_ice st session_id idx mid cand).2.isSome = true ↔
      (idx.isSome = true ∧ st.hasSession session_id = true)) ∧
    (∀ i, idx = some i → st.hasSession session_id = true →
      (BaseWebRTCSink.handle_ice st session_id idx mid cand).2 = some (i, cand)) := by
  unfold BaseWebRTCSink.handle_ice
  cases idx with
  | none => simp
  | some i =>
    by_cases hs : st.hasSession session_id = true
    · simp [hs]
    · simp [hs]

/-- Witness for C10: with one registered session "s1", a candidate with an
m-line index is forwarded; without an index, or for an unknown id, nothing
is forwarded and the state is untouched. -/
theorem handle_ice_forwarding_witness :
    (BaseWebRTCSink.handle_ice sinkStateOne "s1" (some 0) none "cand").2 =
      some (0, "cand") ∧
    (BaseWebRTCSink.handle_ice sinkStateOne "s2" (some 0) none "cand").1 =
      sinkStateOne ∧
    ((BaseWebRTCSink.handle_ice sinkStateOne "s1" none none "cand").2.isSome = false) := by
  exact ⟨(handle_ice_forwarding sinkStateOne "s1" (some 0) none "cand").2.2 0 rfl
    (by decide), (handle_ice_forwarding sinkStateOne "s2" (some 0) none "cand").1,
    by decide⟩

theorem find_filter_ne_none (l : List (String × SessionRec)) (id : String) :
    (l.filter (fun q => q.1 ≠ id)).find? (fun p => p.1 = id) = none := by
  rw [List.find?_eq_none]
  intro x hx
  have hmem := (List.mem_filter.mp hx).2
  simp at hmem ⊢
  exact hmem

/-- Claim C7: `remove_session(id)` returns the `NoSessionWithId` error
whenever no session with that id exists, and calling `remove_session` again
with the same id after a successful removal has no further effect on element
state: the repeated call returns the `NoSessionWithId` error before touching
anything. -/
theorem remove_session_unknown_then_idempotent :
    (∀ (st : SinkState) (id : String) (sg : Bool), st.hasSession id = false →
      BaseWebRTCSink.remove_session st id sg =
        .error (.noSessionWithId id)) ∧
    (∀ (st : SinkState) (id : String) (sg : Bool) (st' : SinkState)
        (ev : List EmittedSignal),
      BaseWebRTCSink.remove_session st id sg = .ok (st', ev) →
      ∀ sg' : Bool, BaseWebRTCSink.remove_session st' id sg' =
        .error (.noSessionWithId id)) := by
  constructor
  · intro st id sg hno
    unfold BaseWebRTCSink.remove_session
    rw [if_pos (by simp [hno])]
  · intro st id sg st' ev hok sg'
    unfold BaseWebRTCSink.remove_session at hok
    by_cases hhas : st.hasSession id = true
    · rw [if_neg (by simp [hhas])] at hok
      have hfind : (st.sessions.find? (fun p => p.1 = id)).isSome = true := hhas
      obtain ⟨p, hp⟩ := Option.isSome_iff_exists.mp hfind
      have hes : SinkState.end_session st id =
          (some p.2, ⟨st.sessions.filter (fun q => q.1 ≠ id), st.finalizing ++ [id]⟩) := by
        unfold SinkState.end_session
        rw [hp]
      rw [hes] at hok
      injection hok with hpr
      rw [Prod.mk.injEq] at hpr
      have hno : st'.hasSession id = false := by
        rw [← hpr.1]
        show ((st.sessions.filter (fun q => q.1 ≠ id)).find?
          (fun p => p.1 = id)).isSome = false
        rw [find_filter_ne_none]
        rfl
      unfold BaseWebRTCSink.remove_session
      rw [if_pos (by simp [hno])]
    · rw [if_pos (by simp [hhas])] at hok
      cases hok

/-- Witness for C7: an unknown id errors; removing "s1" succeeds and the
repeated removal returns `NoSessionWithId`. -/
theorem remove_session_unknown_then_idempotent_witness :
    BaseWebRTCSink.remove_session sinkStateOne "nope" true =
      .error (.noSessionWithId "nope") ∧
    ∃ st' ev, BaseWebRTCSink.remove_session sinkStateOne "s1" true = .ok (st', ev) ∧
      BaseWebRTCSink.remove_session st' "s1" false =
        .error (.noSessionWithId "s1") := by
  have h := remove_session_unknown_then_idempotent
  refine ⟨h.1 sinkStateOne "nope" true (by decide), ?_⟩
  obtain ⟨st', ev, hok⟩ : ∃ st' ev,
      BaseWebRTCSink.remove_session sinkStateOne "s1" true = .ok (st', ev) :=
    ⟨_, _, rfl⟩
  exact ⟨st', ev, hok, h.2 sinkStateOne "s1" true st' ev hok false⟩

theorem runPadRequests_getElem (st : PadRequestState)
    (rs : List (Bool × Bool × Option String)) (i : Nat)
    (r : Bool × Bool × Option String) (hr : rs[i]? = some r) :
    (runPadRequests st rs).2[i]? =
      some (expectedPadResult (st.video_serial + countVideoSuccesses (rs.take i))
        (st.audio_serial + countAudioSuccesses (rs.take i)) r) := by
  induction rs generalizing st i with
  | nil => simp at hr
  | cons r0 rs ih =>
    cases i with
    | zero =>
      have hr0 : r0 = r := by simpa using hr
      subst hr0
      rcases r0 with ⟨a, k, nm⟩
      by_cases ha : a = true <;> by_cases hk : k = true <;>
        simp [runPadRequests, BaseWebRTCSink.request_new_pad, expectedPadResult,
          countVideoSuccesses, countAudioSuccesses, ha, hk]
    | succ i =>
      have hr' : rs[i]? = some r := by simpa using hr
      rcases r0 with ⟨a, k, nm⟩
      by_cases ha : a = true <;> by_cases hk : k = true <;>
        simp [runPadRequests, BaseWebRTCSink.request_new_pad, ha, hk,
          countVideoSuccesses, countAudioSuccesses, List.take_succ_cons,
          List.filter, ih _ _ hr', Nat.add_comm, Nat.add_assoc, Nat.add_left_comm]

/-- Claim C9: `request_new_pad` ignores the caller-supplied pad name; pad
names are assigned from two independent counters (video and audio), each
starting at 0 and incremented by exactly one per successful request, so a
successful video request is named `video_v` with serial `v`, where `v` is
the number of successful video requests made before it, regardless of the
interleaving with audio requests and of the name argument (and likewise
`audio_a` for audio requests). -/
theorem request_new_pad_serials (rs : List (Bool × Bool × Option String)) (i : Nat)
    (r : Bool × Bool × Option String) (hr : rs[i]? = some r) :
    ((runPadRequests initialPadRequestState rs).2[i]? =
      some (expectedPadResult (countVideoSuccesses (rs.take i))
        (countAudioSuccesses (rs.take i)) r)) ∧
    (∀ (st : PadRequestState) (a k : Bool) (n₁ n₂ : Option String),
      BaseWebRTCSink.request_new_pad st a k n₁ =
        BaseWebRTCSink.request_new_pad st a k n₂) := by
  constructor
  · have h := runPadRequests_getElem initialPadRequestState rs i r hr
    simpa [initialPadRequestState] using h
  · intro st a k n₁ n₂
    rfl

/-- Witness for C9: in the sequence video, audio, video (all while ≤ Ready),
the third request — the second video request — is named `video_1` with
serial 1, despite the suggested name of the first request. -/
theorem request_new_pad_serials_witness :
    (runPadRequests initialPadRequestState
        [(false, true, some "mypad"), (false, false, none), (false, true, none)]).2[2]? =
      some (some ("video_1", 1)) := by
  have h := request_new_pad_serials
    [(false, true, some "mypad"), (false, false, none), (false, true, none)] 2
    (false, true, none) rfl
  exact h.1.trans (by decide)

/-- Claim C5: for every session, (1) when `handle_sdp_answer` completes
without ending the session, every WebRTCPad of that session has
`payload = Some(p)` (in particular every active one, so after
`on_remote_description_set` runs without error every active pad has a
payload); (2) when the SDP answer marks the media of some pad inactive, or
lacks a parseable payload for it, the session is ended instead of leaving a
pad with `payload = None`; and (3) whenever `on_remote_description_set`
keeps the session, every active pad (stream_name `Some`) has a payload —
a missing payload makes `connect_input_stream` fail, which ends the
session. -/
theorem handle_sdp_answer_payload_completeness :
    (∀ (pads : List WebRTCPadM) (sdp : List SDPMediaM) (out : List WebRTCPadM),
      BaseWebRTCSink.handle_sdp_answer pads sdp = some out →
      ∀ p ∈ out, p.payload.isSome = true) ∧
    (∀ (pads : List WebRTCPadM) (sdp : List SDPMediaM) (pad : WebRTCPadM),
      pad ∈ pads →
      (((sdp[pad.media_idx]?).map (·.inactiveAttr)).getD false = true ∨
        (sdp[pad.media_idx]?).bind (·.fmt0Payload) = none) →
      BaseWebRTCSink.handle_sdp_answer pads sdp = none) ∧
    (∀ (pads : List WebRTCPadM) (linkOk : WebRTCPadM → Bool),
      BaseWebRTCSink.on_remote_description_set pads linkOk = true →
      ∀ p ∈ pads, p.stream_name.isSome = true → p.payload.isSome = true) := by
  refine ⟨?_, ?_, ?_⟩
  · intro pads
    induction pads with
    | nil =>
      intro sdp out h p hp
      unfold BaseWebRTCSink.handle_sdp_answer at h
      cases h
      cases hp
    | cons pad rest ih =>
      intro sdp out h p hp
      unfold BaseWebRTCSink.handle_sdp_answer at h
      by_cases hin : (((sdp[pad.media_idx]?).map (·.inactiveAttr)).getD false) = true
      · rw [if_pos hin] at h
        cases h
      · rw [if_neg hin] at h
        cases hfmt : (sdp[pad.media_idx]?).bind (·.fmt0Payload) with
        | none => rw [hfmt] at h; cases h
        | some pl =>
          rw [hfmt] at h
          rw [Option.map_eq_some'] at h
          obtain ⟨rest', hrest, hout⟩ := h
          subst hout
          cases hp with
          | head => rfl
          | tail _ hp2 => exact ih sdp rest' hrest p hp2
  · intro pads
    induction pads with
    | nil =>
      intro sdp pad hmem
      cases hmem
    | cons pad0 rest ih =>
      intro sdp pad hmem hoff
      unfold BaseWebRTCSink.handle_sdp_answer
      by_cases hin : (((sdp[pad0.media_idx]?).map (·.inactiveAttr)).getD false) = true
      · rw [if_pos hin]
      · rw [if_neg hin]
        cases hfmt : (sdp[pad0.media_idx]?).bind (·.fmt0Payload) with
        | none => rfl
        | some pl =>
          cases hmem with
          | head =>
            rcases hoff with hoff | hoff
            · exact absurd hoff hin
            · rw [hoff] at hfmt; cases hfmt
          | tail _ hmem2 =>
            rw [ih sdp pad hmem2 hoff]
            rfl
  · intro pads linkOk hall p hp hname
    have h := (List.all_eq_true.mp hall) p hp
    cases hn : p.stream_name with
    | none => rw [hn] at hname; cases hname
    | some nm =>
      rw [hn] at h
      simp only [Bool.and_eq_true] at h
      exact h.1

/-- Witness for C5: a one-pad session whose answer media carries payload 96
survives with the payload filled in; an answer marking the media inactive
ends the session. -/
theorem handle_sdp_answer_payload_completeness_witness :
    (∃ out, BaseWebRTCSink.handle_sdp_answer [⟨0, 1111, some "video_0", none⟩]
        [⟨false, some 96⟩] = some out ∧ ∀ p ∈ out, p.payload.isSome = true) ∧
    BaseWebRTCSink.handle_sdp_answer [⟨0, 1111, some "video_0", none⟩]
      [⟨true, some 96⟩] = none := by
  refine ⟨⟨[⟨0, 1111, some "video_0", some 96⟩], by decide,
    handle_sdp_answer_payload_completeness.1 [⟨0, 1111, some "video_0", none⟩]
      [⟨false, some 96⟩] [⟨0, 1111, some "video_0", some 96⟩] (by decide)⟩, ?_⟩
  exact handle_sdp_answer_payload_completeness.2.1 [⟨0, 1111, some "video_0", none⟩]
    [⟨true, some 96⟩] ⟨0, 1111, some "video_0", none⟩ (by decide) (Or.inl (by decide))

theorem generate_ssrc_fresh (draws : List Nat) (pads : List (Nat × WebRTCPadM))
    (s : Nat) (h : BaseWebRTCSink.generate_ssrc draws pads = some s) :
    pads.any (fun p => p.1 = s) = false ∧ s ∈ draws := by
  unfold BaseWebRTCSink.generate_ssrc at h
  have h1 := List.find?_some h
  have h2 := List.mem_of_find?_eq_some h
  constructor
  · simpa using h1
  · exact h2

theorem anyKey_eq_false {pads : List (Nat × WebRTCPadM)} {s : Nat}
    (h : pads.any (fun p => p.1 = s) = false) : ∀ p ∈ pads, p.1 ≠ s := by
  intro p hp
  intro he
  have : pads.any (fun p => p.1 = s) = true := List.any_eq_true.mpr ⟨p, hp, by simp [he]⟩
  rw [h] at this
  cases this

theorem ssrcKeyInv_insert {pads : List (Nat × WebRTCPadM)} {s : Nat}
    (inv : ssrcKeyInv pads) (hfresh : pads.any (fun p => p.1 = s) = false)
    (pad : WebRTCPadM) (hpad : pad.ssrc = s) :
    ssrcKeyInv (pads ++ [(s, pad)]) := by
  constructor
  · rw [List.pairwise_append]
    refine ⟨inv.1, List.pairwise_singleton _ _, ?_⟩
    intro a ha b hb
    have hb' : b = (s, pad) := by simpa using hb
    subst hb'
    exact anyKey_eq_false hfresh a ha
  · intro p hp
    rcases List.mem_append.mp hp with h | h
    · exact inv.2 p h
    · have hp' : p = (s, pad) := by simpa using h
      subst hp'
      exact hpad

theorem applyPadReq_inv (req : PadReqM) (pads pads' : List (Nat × WebRTCPadM))
    (inv : ssrcKeyInv pads) (h : applyPadReq req pads = some pads') :
    ssrcKeyInv pads' := by
  cases req with
  | inactiveReq d =>
    unfold applyPadReq BaseWebRTCSink.request_inactive_webrtcbin_pad at h
    rw [Option.map_eq_some'] at h
    obtain ⟨s, hgen, hout⟩ := h
    subst hout
    exact ssrcKeyInv_insert inv (generate_ssrc_fresh d pads s hgen).1 _ rfl
  | activeReq d d₂ nm emp =>
    unfold applyPadReq BaseWebRTCSink.request_webrtcbin_pad at h
    rw [Option.bind_eq_some] at h
    obtain ⟨s, hgen, hrest⟩ := h
    by_cases hemp : emp = true
    · rw [if_pos hemp] at hrest
      unfold BaseWebRTCSink.request_inactive_webrtcbin_pad at hrest
      rw [Option.map_eq_some'] at hrest
      obtain ⟨s₂, hgen₂, hout⟩ := hrest
      subst hout
      exact ssrcKeyInv_insert inv (generate_ssrc_fresh d₂ pads s₂ hgen₂).1 _ rfl
    · rw [if_neg hemp] at hrest
      have hout : pads ++ [(s, ⟨pads.length, s, some nm, none⟩)] = pads' := by
        injection hrest
      subst hout
      exact ssrcKeyInv_insert inv (generate_ssrc_fresh d pads s hgen).1 _ rfl

theorem runPadReqs_inv (reqs : List PadReqM) :
    ∀ pads pads', ssrcKeyInv pads → runPadReqs reqs pads = some pads' →
      ssrcKeyInv pads' := by
  induction reqs with
  | nil =>
    intro pads pads' inv h
    unfold runPadReqs at h
    cases h
    exact inv
  | cons r rs ih =>
    intro pads pads' inv h
    unfold runPadReqs at h
    rw [Option.bind_eq_some] at h
    obtain ⟨mid, hap, hrun⟩ := h
    exact ih mid pads' (applyPadReq_inv r pads mid inv hap) hrun

/-- Claim C6: in every session, the ssrc values of the session's WebRTCPads
are pairwise distinct (the map pad → ssrc is injective): `generate_ssrc`
draws random u32 values and retries until it finds one not already present
as a key of the session's `webrtc_pads` map, and every pad is inserted under
its own ssrc; consequently any sequence of pad requests starting from the
empty map yields pads with pairwise-distinct ssrcs. -/
theorem webrtc_pads_ssrc_injective (reqs : List PadReqM)
    (pads' : List (Nat × WebRTCPadM)) (h : runPadReqs reqs [] = some pads') :
    (∀ draws pads s, BaseWebRTCSink.generate_ssrc draws pads = some s →
      pads.any (fun p => p.1 = s) = false ∧ s ∈ draws) ∧
    (∀ p ∈ pads', p.2.ssrc = p.1) ∧
    pads'.Pairwise (fun a b => a.2.ssrc ≠ b.2.ssrc) := by
  have hinv : ssrcKeyInv pads' :=
    runPadReqs_inv reqs [] pads' ⟨List.Pairwise.nil, by simp⟩ h
  refine ⟨generate_ssrc_fresh, hinv.2, ?_⟩
  refine List.Pairwise.imp_of_mem ?_ hinv.1
  intro a b ha hb hne
  rw [hinv.2 a ha, hinv.2 b hb]
  exact hne

/-- Witness for C6: an active pad request (ssrc 5) followed by an inactive
one whose first random draw collides with 5 and retries with 7. -/
theorem webrtc_pads_ssrc_injective_witness :
    ∃ pads', runPadReqs [PadReqM.activeReq [5] [] "video_0" false,
        PadReqM.inactiveReq [5, 7]] [] = some pads' ∧
      pads'.Pairwise (fun a b => a.2.ssrc ≠ b.2.ssrc) := by
  obtain ⟨pads', hp⟩ : ∃ x, runPadReqs [PadReqM.activeReq [5] [] "video_0" false,
      PadReqM.inactiveReq [5, 7]] [] = some x := ⟨_, rfl⟩
  exact ⟨pads', hp, (webrtc_pads_ssrc_injective _ _ hp).2.2⟩

theorem discoveryStep_preserves (st : StreamDiscoveryState) (ev : DiscoveryEvent)
    (inv : discoveryInv st) :
    discoveryInv (discoveryStep st ev) ∧
    (∀ v, st.out_caps = some v → (discoveryStep st ev).out_caps = some v) := by
  obtain ⟨hp1, hp2⟩ := inv
  cases ev with
  | buffer =>
    simp only [discoveryStep]
    by_cases ho : st.out_caps.isSome = true
    · rw [if_pos ho]
      exact ⟨⟨hp1, hp2⟩, fun v hv => hv⟩
    · rw [if_neg ho]
      by_cases hd : 1 ≤ st.initialDiscoveries
      · rw [if_pos hd]
        exact ⟨⟨hp1, hp2⟩, fun v hv => hv⟩
      · rw [if_neg hd]
        have hpend : st.pendingTasks = 0 := by
          rcases Nat.lt_or_ge st.pendingTasks 1 with h | h
          · omega
          · have := hp2 (by omega)
            exact absurd this.1 hd
        constructor
        · constructor
          · simp [hpend]
          · intro _
            constructor
            · simp
            · have : st.out_caps = none := by
                cases hoc : st.out_caps with
                | none => rfl
                | some v => rw [hoc] at ho; exact absurd rfl ho
              simpa using this
        · intro v hv
          rw [hv] at ho
          exact absurd rfl ho
  | complete caps =>
    simp only [discoveryStep]
    by_cases hpend : 1 ≤ st.pendingTasks
    · rw [if_pos hpend]
      have hnone := (hp2 (by omega)).2
      constructor
      · constructor
        · simp
          omega
        · intro hc
          simp at hc
          omega
      · intro v hv
        rw [hv] at hnone
        cases hnone
    · rw [if_neg hpend]
      exact ⟨⟨hp1, hp2⟩, fun v hv => hv⟩

theorem foldl_discovery_stable (evs : List DiscoveryEvent) :
    ∀ st, discoveryInv st →
      discoveryInv (evs.foldl discoveryStep st) ∧
      (∀ v, st.out_caps = some v → (evs.foldl discoveryStep st).out_caps = some v) := by
  induction evs with
  | nil => exact fun st inv => ⟨inv, fun v hv => hv⟩
  | cons ev evs ih =>
    intro st inv
    have hstep := discoveryStep_preserves st ev inv
    have hrest := ih (discoveryStep st ev) hstep.1
    exact ⟨hrest.1, fun v hv => hrest.2 v (hstep.2 v hv)⟩

/-- Claim C4: (1) `stream.out_caps` is write-once — over any trace of buffer
arrivals and discovery completions, once `out_caps` is set it never changes
(the in-flight guard of `start_stream_discovery_if_needed` allows at most
one `lookup_caps` task, and a task only exists while `out_caps` is unset);
(2) a caps event on the ingress sink pad is accepted iff the pad has no
current caps or the new caps are strictly equal to the current caps
(assuming downstream accepts the forwarded event); and (3) a second caps
event with different caps is rejected: the event function returns false and
the stream table (hence `stream.in_caps`) is unchanged. -/
theorem out_caps_write_once_and_ingress_caps :
    (∀ (evs evs' : List DiscoveryEvent) (v : GstStructure),
      (runDiscovery evs).out_caps = some v →
      (runDiscovery (evs ++ evs')).out_caps = some v) ∧
    (∀ (pc : Option GstStructure) (streams : List StreamCapsEntry)
        (nm : String) (caps : GstStructure),
      ((BaseWebRTCSink.sink_event pc streams nm caps true).1 = true ↔
        (pc = none ∨ pc = some caps))) ∧
    (∀ (cur : GstStructure) (streams : List StreamCapsEntry) (nm : String)
        (caps : GstStructure) (d : Bool), cur ≠ caps →
      BaseWebRTCSink.sink_event (some cur) streams nm caps d = (false, streams)) := by
  refine ⟨?_, ?_, ?_⟩
  · intro evs evs' v hv
    have hinit : discoveryInv initialStreamDiscoveryState := by
      constructor
      · simp [initialStreamDiscoveryState]
      · intro hc
        simp [initialStreamDiscoveryState] at hc
    unfold runDiscovery
    rw [List.foldl_append]
    have hinv := (foldl_discovery_stable evs initialStreamDiscoveryState hinit).1
    exact (foldl_discovery_stable evs' _ hinv).2 v hv
  · intro pc streams nm caps
    cases pc with
    | none => simp [BaseWebRTCSink.sink_event]
    | some cur =>
      unfold BaseWebRTCSink.sink_event
      by_cases he : cur = caps
      · simp [he]
      · simp [he]
  · intro cur streams nm caps d hne
    simp [BaseWebRTCSink.sink_event, hne]

/-- Witness for C4: a buffer spawns discovery, its completion sets
`out_caps`; a later buffer and a stray completion cannot change it; and a
second caps event with different caps is rejected leaving the table
unchanged. -/
theorem out_caps_write_once_and_ingress_caps_witness :
    (runDiscovery ([DiscoveryEvent.buffer, DiscoveryEvent.complete capsRtp] ++
      [DiscoveryEvent.buffer, DiscoveryEvent.complete capsRtp96])).out_caps =
        some capsRtp ∧
    BaseWebRTCSink.sink_event (some capsRtp) [⟨"video_0", some capsRtp⟩] "video_0"
      capsRtp96 true = (false, [⟨"video_0", some capsRtp⟩]) := by
  refine ⟨out_caps_write_once_and_ingress_caps.1
    [DiscoveryEvent.buffer, DiscoveryEvent.complete capsRtp]
    [DiscoveryEvent.buffer, DiscoveryEvent.complete capsRtp96] capsRtp (by decide),
    out_caps_write_once_and_ingress_caps.2.2 capsRtp [⟨"video_0", some capsRtp⟩]
      "video_0" capsRtp96 true (by decide)⟩

theorem selectFrom_start_charact (o : Nat → Bool) (fuel : Nat) :
    ∀ (s p j : Nat),
      (selectCodecTraceFrom o s fuel)[p]? = some (ProbeEvent.start j) →
      p % 2 = 0 ∧ j = s + p / 2 ∧
      ∀ q < p, (selectCodecTraceFrom o s fuel)[q]? =
        some (if q % 2 = 0 then ProbeEvent.start (s + q / 2)
          else ProbeEvent.finish (s + q / 2)) := by
  induction fuel with
  | zero =>
    intro s p j h
    simp [selectCodecTraceFrom] at h
  | succ fuel ih =>
    intro s p j h
    by_cases ho : o s = true
    · rw [selectCodecTraceFrom, if_pos ho] at h
      match p, h with
      | 0, h =>
        have hj : j = s := by
          have := (Option.some.injEq _ _).mp h
          cases this
          rfl
        refine ⟨rfl, by omega, ?_⟩
        intro q hq
        omega
      | 1, h =>
        exfalso
        have := (Option.some.injEq _ _).mp h
        cases this
      | p + 2, h =>
        exfalso
        simp at h
    · rw [selectCodecTraceFrom, if_neg ho] at h
      have hrw : [ProbeEvent.start s, ProbeEvent.finish s] ++
          selectCodecTraceFrom o (s + 1) fuel =
          ProbeEvent.start s :: ProbeEvent.finish s ::
            selectCodecTraceFrom o (s + 1) fuel := rfl
      rw [hrw] at h
      match p, h with
      | 0, h =>
        have hj : s = j := by simpa using h
        refine ⟨rfl, by omega, ?_⟩
        intro q hq
        omega
      | 1, h =>
        exfalso
        simp at h
      | p + 2, h =>
        have h' : (selectCodecTraceFrom o (s + 1) fuel)[p]? =
            some (ProbeEvent.start j) := by
          simpa using h
        obtain ⟨hp2, hj, hq⟩ := ih (s + 1) p j h'
        refine ⟨by omega, by omega, ?_⟩
        intro q hql
        rw [selectCodecTraceFrom, if_neg ho, hrw]
        match q with
        | 0 => simp
        | 1 => simp
        | q + 2 =>
          have htail := hq q (by omega)
          have e1 : (q + 2) % 2 = q % 2 := by omega
          have e2 : s + (q + 2) / 2 = s + 1 + q / 2 := by omega
          rw [e1, e2]
          simpa using htail

theorem selectCodecTrace_sequential (o : Nat → Bool) (n : Nat) :
    sequentialTrace (selectCodecTrace o n) := by
  intro i pj h
  obtain ⟨hp2, hj, hq⟩ := selectFrom_start_charact o n 0 pj (i + 1) h
  refine ⟨2 * i + 1, by omega, ?_⟩
  have hth := hq (2 * i + 1) (by omega)
  rw [if_neg (by omega)] at hth
  have e : 0 + (2 * i + 1) / 2 = i := by omega
  rw [e] at hth
  exact hth

theorem lookupCapsTrace_concurrent (n i j : Nat) (hi : i < n) (hj : j < n) :
    ∃ pj pi : Nat, pj < pi ∧
      (lookupCapsTrace n)[pj]? = some (ProbeEvent.start j) ∧
      (lookupCapsTrace n)[pi]? = some (ProbeEvent.finish i) := by
  refine ⟨j, n + i, by omega, ?_, ?_⟩
  · unfold lookupCapsTrace
    rw [List.getElem?_append, if_pos (by simpa using hj)]
    simp [List.getElem?_map, List.getElem?_range, hj]
  · unfold lookupCapsTrace
    rw [List.getElem?_append, if_neg (by simp)]
    simp [List.getElem?_map, List.getElem?_range, hi]

/-- Claim C3 (amended): codec-selection discovery driven by a remote offer
(`select_codec`) runs its probing pipelines sequentially — the probe for
candidate i+1 is started only after the probe for candidate i has completed
— but initial discovery (`lookup_caps`) runs all candidate probes
concurrently via `futures::future::join_all`: every candidate's pipeline is
started before any candidate's probe completes. -/
theorem discovery_probe_scheduling :
    (∀ (o : Nat → Bool) (n : Nat), sequentialTrace (selectCodecTrace o n)) ∧
    (∀ n i j : Nat, i < n → j < n →
      ∃ pj pi : Nat, pj < pi ∧
        (lookupCapsTrace n)[pj]? = some (ProbeEvent.start j) ∧
        (lookupCapsTrace n)[pi]? = some (ProbeEvent.finish i)) :=
  ⟨selectCodecTrace_sequential, lookupCapsTrace_concurrent⟩

/-- Claim C3 counterexample: with two candidates, the `lookup_caps`
(initial-discovery) schedule is not sequential — candidate 1's probe starts
(position 1) before candidate 0's probe finishes (position 2). -/
theorem lookup_caps_not_sequential_counterexample :
    ¬sequentialTrace (lookupCapsTrace 2) := by
  intro h
  obtain ⟨pi, hlt, hev⟩ := h 0 1 (by decide)
  have hpi : pi = 0 := by omega
  subst hpi
  exact absurd hev (by decide)

/-- Witness for the amended C3: a concrete sequential select_codec schedule
and the concurrent lookup_caps schedule for two candidates. -/
theorem discovery_probe_scheduling_witness :
    sequentialTrace (selectCodecTrace (fun _ => false) 2) ∧
    ∃ pj pi : Nat, pj < pi ∧
      (lookupCapsTrace 2)[pj]? = some (ProbeEvent.start 1) ∧
      (lookupCapsTrace 2)[pi]? = some (ProbeEvent.finish 0) :=
  ⟨discovery_probe_scheduling.1 (fun _ => false) 2,
    discovery_probe_scheduling.2 2 0 1 (by decide) (by decide)⟩
